import Mathlib

/-!
Shallow embedding of the recruiting-campaign authoring tool
(src/utils/campaignAssistantAI.ts, src/utils/openai.ts,
src/components/CampaignStepsEditor.tsx) and proofs about it.

External LLM calls are modelled as explicit inputs: an `Option` value is
`none` when the call fails (or its output cannot be parsed) and `some p`
when it succeeds with parsed payload `p`.  JavaScript string truthiness
(`undefined`/`""` are falsy) is modelled by `truthyS` over `Option String`.
Literal braces inside string literals are written with the `\x7b`/`\x7d`
escapes.
-/

namespace CampaignTool

/-- JS truthiness of a possibly-absent string: `undefined` and `""` are falsy. -/
def truthyS : Option String → Bool
  | none => false
  | some s => s ≠ ""

/-- JS truthiness of a possibly-absent boolean (`undefined` and `false` falsy). -/
def truthyB : Option Bool → Bool
  | none => false
  | some b => b

/-- JS `x || d` for a possibly-absent string `x` (empty string falls back). -/
def jsOrStr (x : Option String) (d : String) : String :=
  match x with
  | none => d
  | some s => if s = "" then d else s

/-- JS `x || d` for a possibly-absent number (`0`, `NaN`, `undefined` fall back;
`none` models both a missing field and `NaN`). -/
def jsOrInt (x : Option Int) (d : Int) : Int :=
  match x with
  | none => d
  | some v => if v = 0 then d else v

/-- JS `String.prototype.trim` over the character list (the whitespace
characters in play are ASCII). -/
def jsTrim (s : String) : String :=
  ⟨((s.data.dropWhile Char.isWhitespace).reverse.dropWhile Char.isWhitespace).reverse⟩

/-- JS `toLowerCase` (ASCII range, which covers every keyword compared). -/
def jsToLower (s : String) : String := ⟨s.data.map Char.toLower⟩

/-- First-of-two-options, as produced by a JS object spread. -/
def oor (a b : Option α) : Option α :=
  match a with
  | some x => some x
  | none => b

/-- Occurrence test for `pat` inside `s` (JS `String.prototype.includes`). -/
def containsSub (pat : List Char) : List Char → Bool
  | [] => pat.isEmpty
  | c :: rest => pat.isPrefixOf (c :: rest) || containsSub pat rest

/-- String-level `includes`. -/
def jsIncludes (s pat : String) : Bool := containsSub pat.data s.data

/-- Number of (possibly overlapping) positions of `s` at which `pat` starts. -/
def countOcc (pat : List Char) : List Char → Nat
  | [] => 0
  | c :: rest => (if pat.isPrefixOf (c :: rest) then 1 else 0) + countOcc pat rest

/-- String-level occurrence count. -/
def countOccS (pat s : String) : Nat := countOcc pat.data s.data

/-- First index of `s` at which `pat` starts (`s.length` when absent);
models JS `indexOf` in contexts where the pattern is known to occur. -/
def indexOfSub (pat : List Char) : List Char → Nat
  | [] => 0
  | c :: rest => if pat.isPrefixOf (c :: rest) then 0 else 1 + indexOfSub pat rest

/-- Fuel-indexed body of the global replacement; structural recursion on the
fuel so that concrete instances reduce in the kernel. -/
def replaceAllFuel (pat rep : List Char) : Nat → List Char → List Char
  | _, [] => []
  | 0, s => s
  | fuel + 1, c :: rest =>
    if pat ≠ [] ∧ pat.isPrefixOf (c :: rest) then
      rep ++ replaceAllFuel pat rep fuel ((c :: rest).drop pat.length)
    else
      c :: replaceAllFuel pat rep fuel rest

/-- Global, leftmost, non-overlapping literal replacement: the semantics of
JS `String.prototype.replace` with a global literal regex.  The replacement
text is not rescanned; the fuel `s.length` always suffices. -/
def replaceAllL (pat rep : List Char) (s : List Char) : List Char :=
  replaceAllFuel pat rep s.length s

/-- String-level global literal replacement. -/
def jsReplaceAll (s pat rep : String) : String :=
  ⟨replaceAllL pat.data rep.data s.data⟩

end CampaignTool

namespace CampaignTool

/-! ## Data model (src/types, as used by src/utils/campaignAssistantAI.ts) -/

/-- `Partial<CampaignDraft>`: every field may be absent (`none`). -/
structure CampaignDraft where
  goal : Option String := none
  matchedExampleId : Option String := none
  type : Option String := none
  targetAudience : Option String := none
  tone : Option String := none
  emailLength : Option String := none
  additionalContext : Option String := none
  enablePersonalization : Option Bool := none
  companyName : Option String := none
  recruiterName : Option String := none
deriving Repr, DecidableEq

/-- The assistant's answer for one conversational turn. -/
structure AssistantResponse where
  message : String
  suggestions : List String
  campaignDraft : CampaignDraft
  nextStep : String
  isComplete : Bool
deriving Repr, DecidableEq

/-- The classifier LLM's parsed JSON answer; every field may be missing. -/
structure ParsedResponse where
  message : Option String := none
  suggestions : Option (List String) := none
  campaignDraft : Option CampaignDraft := none
  nextStep : Option String := none
  isComplete : Option Bool := none
deriving Repr, DecidableEq

/-! ## Conversation state machine (campaignAssistantAI.ts) -/

/-- `determineNextStep` (campaignAssistantAI.ts, lines 650-657). -/
def determineNextStep (d : CampaignDraft) : String :=
  if ¬ truthyS d.goal then "goal"
  else if ¬ truthyS d.targetAudience then "audience"
  else if ¬ truthyS d.tone then "tone"
  else if ¬ truthyS d.additionalContext then "context"
  else if truthyS d.additionalContext ∧ d.enablePersonalization = none then "personalization"
  else "review"

/-- The object spread `{ emailLength: 'concise', enablePersonalization: false,
...currentDraft, ...parsedResponse.campaignDraft }` (lines 207-212). -/
def mergeDraft (cur patch : CampaignDraft) : CampaignDraft where
  goal := oor patch.goal cur.goal
  matchedExampleId := oor patch.matchedExampleId cur.matchedExampleId
  type := oor patch.type cur.type
  targetAudience := oor patch.targetAudience cur.targetAudience
  tone := oor patch.tone cur.tone
  emailLength := oor (oor patch.emailLength cur.emailLength) (some "concise")
  additionalContext := oor patch.additionalContext cur.additionalContext
  enablePersonalization :=
    oor (oor patch.enablePersonalization cur.enablePersonalization) (some false)
  companyName := oor patch.companyName cur.companyName
  recruiterName := oor patch.recruiterName cur.recruiterName

/-- The validated/defaulted response built from the parsed LLM output
(lines 204-215). -/
def baseResponse (cur : CampaignDraft) (parsed : ParsedResponse) : AssistantResponse where
  message := jsOrStr parsed.message "I\x27m here to help you create your campaign."
  suggestions := parsed.suggestions.getD []
  campaignDraft := mergeDraft cur (parsed.campaignDraft.getD {})
  nextStep := jsOrStr parsed.nextStep (determineNextStep cur)
  isComplete := truthyB parsed.isComplete

/-- Goal-identified auto-transition to the audience step (lines 218-222). -/
def stepGoalBlock (cur : CampaignDraft) (r : AssistantResponse) : AssistantResponse :=
  if truthyS r.campaignDraft.goal ∧ truthyS r.campaignDraft.matchedExampleId ∧
      ¬ truthyS cur.goal then
    { r with nextStep := "audience" }
  else r

/-- Audience suggestions synthesized from recent searches (lines 225-238). -/
def stepAudienceSuggest (recentSearches : List String) (r : AssistantResponse) :
    AssistantResponse :=
  if r.nextStep = "audience" ∧ recentSearches.length > 0 ∧ r.suggestions.length = 0 then
    { r with
      suggestions :=
        (recentSearches.take 3).map (fun s => "Candidates matching: \"" ++ s ++ "\"")
      message := "Great! Now let\x27s define your target audience. Based on your recent searches, I\x27ve prepared some options for you to choose from, or you can describe a different audience." }
  else r

def audienceKeywords : List String :=
  ["candidates", "nurses", "professionals", "specialists", "workers", "staff",
   "employees", "people", "individuals", "practitioners", "technicians",
   "administrators", "managers", "directors", "coordinators"]

def locationKeywords : List String := ["in", "from", "at", "near", "around", "within"]

def experienceKeywords : List String :=
  ["years", "experience", "experienced", "senior", "junior", "entry", "level"]

/-- Deterministic target-audience detection (lines 240-266). -/
def stepAudienceHeur (userInput : String) (cur : CampaignDraft)
    (r : AssistantResponse) : AssistantResponse :=
  let inputLower := jsToLower userInput
  let hasAudienceKeywords := audienceKeywords.any (fun k => jsIncludes inputLower k)
  let hasLocationKeywords := locationKeywords.any (fun k => jsIncludes inputLower k)
  let hasExperienceKeywords := experienceKeywords.any (fun k => jsIncludes inputLower k)
  if truthyS cur.goal ∧ ¬ truthyS cur.targetAudience ∧ (jsTrim userInput).length > 10 ∧
      (hasAudienceKeywords ∨ hasLocationKeywords ∨ hasExperienceKeywords ∨
        (jsTrim userInput).length > 20) then
    { r with
      campaignDraft := { r.campaignDraft with targetAudience := some (jsTrim userInput) }
      nextStep := "tone"
      message := "Perfect! I\x27ve set your target audience as \"" ++ jsTrim userInput ++ "\". Now, what tone would you like for your campaign communications, and what email length do you prefer?"
      suggestions :=
        ["Professional tone, concise emails (60-80 words)",
         "Friendly tone, medium emails (100-120 words)",
         "Professional tone, short emails (30-50 words)",
         "Warm tone, long emails (150+ words)"] }
  else r

def toneKeywords : List String := ["professional", "friendly", "casual", "warm", "formal"]

def lengthKeywords : List String := ["short", "concise", "medium", "long", "brief", "detailed"]

/-- Tone extraction from the user's input (lines 280-285). -/
def detectTone (inputLower : String) : String :=
  if jsIncludes inputLower "friendly" then "friendly"
  else if jsIncludes inputLower "casual" then "casual"
  else if jsIncludes inputLower "warm" then "warm"
  else if jsIncludes inputLower "formal" then "formal"
  else "professional"

/-- Email-length extraction from the user's input (lines 287-291). -/
def detectLength (inputLower : String) : String :=
  if jsIncludes inputLower "short" ∨ jsIncludes inputLower "brief" then "short"
  else if jsIncludes inputLower "medium" then "medium"
  else if jsIncludes inputLower "long" ∨ jsIncludes inputLower "detailed" then "long"
  else "concise"

/-- Deterministic tone / email-length detection (lines 268-304). -/
def stepToneHeur (userInput : String) (cur : CampaignDraft)
    (r : AssistantResponse) : AssistantResponse :=
  let inputLower := jsToLower userInput
  let hasToneKeywords := toneKeywords.any (fun k => jsIncludes inputLower k)
  let hasLengthKeywords := lengthKeywords.any (fun k => jsIncludes inputLower k)
  if truthyS cur.targetAudience ∧ ¬ truthyS cur.tone ∧ (jsTrim userInput).length > 5 ∧
      (hasToneKeywords ∨ hasLengthKeywords) then
    let detectedTone := detectTone inputLower
    let detectedLength := detectLength inputLower
    { r with
      campaignDraft :=
        { r.campaignDraft with tone := some detectedTone, emailLength := some detectedLength }
      nextStep := "context"
      message := "Great choice on the " ++ detectedTone ++ " tone and " ++ detectedLength ++ " email length! We\x27ll ensure the emails maintain a " ++ detectedTone ++ " tone and are " ++ detectedLength ++ " in length. Let\x27s move on to gather any additional context or specific requirements you might have for this campaign. Is there any particular information or detail you\x27d like to include?"
      suggestions :=
        ["Include company benefits information",
         "Focus on career development opportunities",
         "Highlight work-life balance",
         "Emphasize competitive compensation"] }
  else r

/-- Verbatim capture of additional context (lines 306-318). -/
def stepContextHeur (userInput : String) (cur : CampaignDraft)
    (r : AssistantResponse) : AssistantResponse :=
  if truthyS cur.targetAudience ∧ truthyS cur.tone ∧ ¬ truthyS cur.additionalContext ∧
      (jsTrim userInput).length > 10 then
    { r with
      campaignDraft := { r.campaignDraft with additionalContext := some userInput }
      nextStep := "personalization"
      message := "Perfect! I\x27ve captured your additional context exactly as provided. Now, would you like to enable personalization for each candidate? This will customize the email content based on each candidate\x27s profile data."
      suggestions :=
        ["Yes, enable personalization",
         "No, use general content for all candidates"] }
  else r

def personalizationYesKeywords : List String :=
  ["yes", "enable", "personalization", "customize", "personalize"]

/-- Personalization-preference detection (lines 320-346). -/
def stepPersHeur (userInput : String) (cur : CampaignDraft)
    (r : AssistantResponse) : AssistantResponse :=
  if truthyS cur.additionalContext ∧ r.nextStep = "personalization" ∧
      (jsTrim userInput).length > 0 then
    let inputLower := jsToLower userInput
    let isEnabling := personalizationYesKeywords.any (fun k => jsIncludes inputLower k)
    { r with
      campaignDraft := { r.campaignDraft with enablePersonalization := some isEnabling }
      nextStep := "review"
      message :=
        if isEnabling then
          "Great! I\x27ve enabled personalization for your campaign. Each email will be customized based on the candidate\x27s profile data. Your campaign is now ready for generation. Let me review the details with you before we proceed."
        else
          "Understood. I\x27ve disabled personalization for your campaign. All candidates will receive the same email content. Your campaign is now ready for generation. Let me review the details with you before we proceed."
      suggestions :=
        ["Generate the campaign now",
         "Let me review the details first",
         "I want to make some changes"] }
  else r

/-- The success branch of `processUserInput` (lines 170-349): the parsed LLM
response merged over the current draft, then the deterministic heuristic
layers applied in program order. -/
def processUserInputSuccess (userInput : String) (cur : CampaignDraft)
    (recentSearches : List String) (parsed : ParsedResponse) : AssistantResponse :=
  stepPersHeur userInput cur
    (stepContextHeur userInput cur
      (stepToneHeur userInput cur
        (stepAudienceHeur userInput cur
          (stepAudienceSuggest recentSearches
            (stepGoalBlock cur (baseResponse cur parsed))))))

/-- `createFallbackResponse` (lines 659-730). -/
def createFallbackResponse (userInput : String) (cur : CampaignDraft)
    (recentSearches : List String) : AssistantResponse :=
  let nextStep := determineNextStep cur
  let pair : String × List String :=
    if nextStep = "goal" then
      ("I\x27d love to help you create a campaign! What\x27s the main goal you want to achieve with this campaign?",
       ["Build a talent community for healthcare professionals",
        "Nurture passive candidates with industry insights",
        "Reengage inactive candidates with new opportunities",
        "Provide educational content to boost candidate skills"])
    else if nextStep = "audience" then
      ("Great goal! Now, who is your target audience for this campaign?",
       if recentSearches.length > 0 then
         (recentSearches.take 3).map (fun s => "Candidates matching: \"" ++ s ++ "\"")
       else
         ["Healthcare professionals nationwide",
          "Registered nurses in specific locations",
          "New graduates entering healthcare",
          "Experienced specialists in oncology/ICU"])
    else if nextStep = "tone" then
      ("Perfect! What tone would you like for your campaign communications, and what email length do you prefer?",
       ["Professional tone, concise emails (60-80 words)",
        "Friendly tone, medium emails (100-120 words)",
        "Professional tone, short emails (30-50 words)",
        "Warm tone, long emails (150+ words)"])
    else if nextStep = "context" then
      ("Excellent! Is there any additional context or specific requirements for this campaign?",
       ["Include company benefits information",
        "Focus on career development opportunities",
        "Highlight work-life balance",
        "Emphasize competitive compensation"])
    else if nextStep = "personalization" then
      ("Would you like to enable personalization for each candidate? This will customize the email content based on each candidate\x27s profile data.",
       ["Yes, enable personalization",
        "No, use general content for all candidates"])
    else
      ("Let me review your campaign details. Does everything look correct?",
       ["Yes, generate the campaign", "Let me make some changes"])
  { message := pair.1
    suggestions := pair.2
    campaignDraft := { cur with emailLength := some (jsOrStr cur.emailLength "concise") }
    nextStep := nextStep
    isComplete := false }

/-- `processUserInput` (lines 32-357): the LLM call either succeeds with a
parsed response or fails (throws / unparseable), these outcomes being the
`llm` input.  Failures produce the deterministic fallback response. -/
def processUserInput (userInput : String) (cur : CampaignDraft)
    (recentSearches : List String) (llm : Option ParsedResponse) : AssistantResponse :=
  match llm with
  | some parsed => processUserInputSuccess userInput cur recentSearches parsed
  | none => createFallbackResponse userInput cur recentSearches

end CampaignTool

namespace CampaignTool

/-! ## Token substitution and personalization (openai.ts) -/

/-- Candidate context used for previews and token substitution. -/
structure Candidate where
  name : String
  company : String
  skills : List String
deriving Repr, DecidableEq

def tokFirstName : String := "\x7b\x7bFirst Name\x7d\x7d"

def tokCurrentCompany : String := "\x7b\x7bCurrent Company\x7d\x7d"

def tokCompanyName : String := "\x7b\x7bCompany Name\x7d\x7d"

def tokYourName : String := "\x7b\x7bYour Name\x7d\x7d"

def tokRecruiterName : String := "\x7b\x7bRecruiter Name\x7d\x7d"

def tokSkill : String := "\x7b\x7bSkill\x7d\x7d"

def startMarker : String := "<!-- PERSONALIZATION_SECTION_START -->"

def endMarker : String := "<!-- PERSONALIZATION_SECTION_END -->"

/-- `candidate.name.split(' ')[0]`: the characters before the first space. -/
def firstNameOf (name : String) : String := ⟨name.data.takeWhile (fun c => c != ' ')⟩

/-- `candidate.skills[0] || 'healthcare'`. -/
def skillValue (skills : List String) : String := jsOrStr skills.head? "healthcare"

/-- `applyTokenReplacement` (openai.ts, lines 589-596). -/
def applyTokenReplacement (content : String) (candidate : Candidate) : String :=
  jsReplaceAll
    (jsReplaceAll
      (jsReplaceAll
        (jsReplaceAll
          (jsReplaceAll content tokFirstName (firstNameOf candidate.name))
          tokCurrentCompany candidate.company)
        tokCompanyName "HCA Healthcare")
      tokYourName "Saurabh Agrawal")
    tokSkill (skillValue candidate.skills)

/-- The styled-paragraph wrapper for a raw LLM personalization answer
(openai.ts, line 558). -/
def wrapParagraph (s : String) : String :=
  "<p style=\"color: #555; font-size: 16px; margin: 15px 0; background-color: #f0f7ff; padding: 15px; border-left: 4px solid #0066cc; border-radius: 4px;\">" ++ s ++ "</p>"

/-- Replacing the marked personalization section of an email
(openai.ts, lines 562-575). -/
def spliceSection (emailContent personalizedContent : String) : String :=
  if jsIncludes emailContent startMarker ∧ jsIncludes emailContent endMarker then
    let startIndex := indexOfSub startMarker.data emailContent.data
    let endIndex := indexOfSub endMarker.data emailContent.data + endMarker.length
    ⟨emailContent.data.take startIndex ++ startMarker.data ++ "\n".data ++
      personalizedContent.data ++ "\n".data ++ endMarker.data ++
      emailContent.data.drop endIndex⟩
  else emailContent

/-- `generatePersonalizedContent` (openai.ts, lines 465-586).  The LLM call is
the `llm` input: `none` models a thrown error or an empty response. -/
def generatePersonalizedContent (emailContent : String) (candidate : Candidate)
    (llm : Option String) : String :=
  if ¬ jsIncludes emailContent startMarker ∨ ¬ jsIncludes emailContent endMarker then
    applyTokenReplacement emailContent candidate
  else
    match llm with
    | none => applyTokenReplacement emailContent candidate
    | some response =>
      let personalizedContent := jsTrim response
      let personalizedContent :=
        if ¬ jsIncludes personalizedContent "<p" then wrapParagraph personalizedContent
        else personalizedContent
      applyTokenReplacement (spliceSection emailContent personalizedContent) candidate

/-! ## Campaign sequence generation (openai.ts) -/

/-- A campaign email step (openai.ts `EmailStep`); `delayUnit` is kept as a
raw string because the parsed LLM output is untyped at runtime. -/
structure EmailStep where
  id : String
  type : String
  subject : String
  content : String
  delay : Int
  delayUnit : String
deriving Repr, DecidableEq

/-- One email step of the parsed LLM JSON; untyped, so every field may be
missing (`delay = none` also models a `NaN` parse). -/
structure ParsedStep where
  type : Option String := none
  subject : Option String := none
  content : Option String := none
  delay : Option Int := none
  delayUnit : Option String := none
deriving Repr, DecidableEq

/-- `CampaignPrompt` (openai.ts, lines 31-42). -/
structure CampaignPrompt where
  campaignType : String
  targetAudience : String
  campaignGoal : String
  contentSources : List String
  aiInstructions : String
  tone : String
  emailLength : Option String := none
  companyName : String
  recruiterName : String
  enablePersonalization : Option Bool := none
deriving Repr, DecidableEq

/-- Company collateral (lib/supabase `CompanyCollateral`, as consumed here). -/
structure CompanyCollateral where
  type : String
  content : String
  links : List String
deriving Repr, DecidableEq

/-- `relevantCompanyCollateral.find(item => item.type === t)?.content.substring(0, 150)`,
with `''` when absent (openai.ts lines 249-267, campaignAssistantAI.ts 774-792). -/
def collateralSnippet (coll : List CompanyCollateral) (t : String) : String :=
  match coll.find? (fun item => item.type == t) with
  | some item => item.content.take 150
  | none => ""

/-- Link-typed collateral is used whole (openai.ts lines 269-277,
campaignAssistantAI.ts 794-802). -/
def collateralLink (coll : List CompanyCollateral) (t : String) : String :=
  match coll.find? (fun item => item.type == t) with
  | some item => item.content
  | none => ""

/-- Per-step validation of the parsed generation output
(openai.ts, lines 202-219). -/
def mapSeqStep (i : Nat) (email : ParsedStep) : EmailStep :=
  let delayUnit : String :=
    if i = 0 then "immediately"
    else
      match email.delayUnit with
      | some u => if u = "immediately" ∨ u = "business days" then u else "business days"
      | none => "business days"
  { id := "step-" ++ toString (i + 1)
    type := if email.type = some "connection" then "connection" else "email"
    subject := jsOrStr email.subject ("Follow-up " ++ toString (i + 1))
    content := jsOrStr email.content "Email content here..."
    delay := max 0 (jsOrInt email.delay (if i = 0 then 0 else (i : Int) * 2))
    delayUnit := delayUnit }

end CampaignTool

namespace CampaignTool

/-! ## Deterministic fallback email HTML

The two fallback generators (openai.ts `generateCampaignSequence` catch
branch and campaignAssistantAI.ts `createFallbackCampaign`) build the same
HTML template text; they differ only in the benefits-list heading markup and
in where the interpolated values come from, so the literal fragments are
shared below and each source function instantiates them. -/

def feHead1 : String := "<table width=\"100%\" cellpadding=\"0\" cellspacing=\"0\" style=\"max-width: 600px; margin: 0 auto; font-family: Arial, sans-serif; line-height: 1.6;\">\n  <tr>\n    <td style=\"padding: 20px;\">\n      <h2 style=\"color: #333; font-size: 20px; margin: 0 0 15px 0;\">Hi \x7b\x7bFirst Name\x7d\x7d,</h2>\n      \n      <p style=\"color: #555; font-size: 16px; margin: 0 0 15px 0;\">\n        "

def feHead2 : String := " at <strong style=\"color: #333;\">\x7b\x7bCompany Name\x7d\x7d</strong>.\n      </p>\n      \n      <p style=\"color: #555; font-size: 16px; margin: 0 0 15px 0;\">\n        "

def feHead3 : String := "\n      </p>\n      \n      "

def feInfoOpen : String := "\n      <p style=\"color: #555; font-size: 16px; margin: 0 0 15px 0;\">\n        "

def feInfoClose : String := "\n      </p>\n      "

def feGap : String := "\n      \n      "

def feBenOpenA : String := "\n      <div style=\"margin: 15px 0;\">\n        <p style=\"color: #555; font-size: 16px; margin: 0 0 10px 0;\"><strong style=\"color: #333;\">Our benefits include:</strong></p>\n        <ul style=\"color: #555; font-size: 16px; margin: 0; padding-left: 20px;\">\n          <li style=\"margin-bottom: 8px;\">"

def feBenOpenB : String := "\n      <div style=\"margin: 15px 0;\">\n        <p style=\"color: #555; font-size: 16px; margin: 0 0 10px 0;\">Our benefits include:</p>\n        <ul style=\"color: #555; font-size: 16px; margin: 0; padding-left: 20px;\">\n          <li style=\"margin-bottom: 8px;\">"

def feBenClose : String := "</li>\n        </ul>\n      </div>\n      "

def fePersOpen : String := "\n      <!-- PERSONALIZATION_SECTION_START -->\n      <p style=\"color: #555; font-size: 16px; margin: 15px 0;\">\n        "

def fePersClose : String := "\n      </p>\n      <!-- PERSONALIZATION_SECTION_END -->"

def fePersV0 : String := "Your experience at <strong style=\"color: #333;\">\x7b\x7bCurrent Company\x7d\x7d</strong> caught my attention, particularly your background in healthcare."

def fePersV1 : String := "Your skills in \x7b\x7bSkill\x7d\x7d would be valuable to our team at "

def fePersV2 : String := "Your professional journey at \x7b\x7bCurrent Company\x7d\x7d shows the kind of expertise we\x27re looking for."

def feCta0 : String := "\n      <p style=\"color: #555; font-size: 16px; margin: 15px 0;\">\n        Would you be interested in exploring opportunities with us?\n      </p>\n      "

def feCta1 : String := "\n      <p style=\"color: #555; font-size: 16px; margin: 15px 0;\">\n        I\x27d love to discuss how your experience at <strong style=\"color: #333;\">\x7b\x7bCurrent Company\x7d\x7d</strong> could be valuable to our team.\n      </p>\n      "

def feCta2 : String := "\n      <p style=\"color: #555; font-size: 16px; margin: 15px 0;\">\n        Would you be available for a brief conversation this week?\n      </p>\n      "

def feTalent1 : String := "\n      <div style=\"margin: 20px 0;\">\n        <a href=\""

def feTalent2 : String := "\" style=\"display: inline-block; padding: 10px 20px; background-color: #0066cc; color: white; text-decoration: none; border-radius: 4px; font-weight: bold;\">Join Our Talent Community</a>\n      </div>\n      "

def feCareer1 : String := "\n      <p style=\"color: #555; font-size: 16px; margin: 15px 0;\">\n        Learn more about opportunities at "

def feCareer2 : String := ": <a href=\""

def feCareer3 : String := "\" style=\"color: #0066cc; text-decoration: none; font-weight: bold;\">View Career Site</a>\n      </p>\n      "

def feSig : String := "\n      \n      <p style=\"color: #555; font-size: 16px; margin: 15px 0 0 0;\">\n        Best regards,<br>\n        <strong style=\"color: #333;\">\x7b\x7bYour Name\x7d\x7d</strong>\n      </p>\n    </td>\n  </tr>\n</table>"

def emailDefaultContext : String := "We have exciting opportunities that align with your background and career goals."

/-- JS `s || d` for a plain string. -/
def jsOrStrV (s d : String) : String := if s = "" then d else s

/-- The three index-dependent personalization texts. -/
def persVariant (i : Nat) (companyName : String) : String :=
  if i = 0 then fePersV0
  else if i = 1 then fePersV1 ++ companyName ++ "."
  else fePersV2

/-- The optional marked personalization region of a fallback email. -/
def persBlock (enabled : Bool) (i : Nat) (companyName : String) : String :=
  if enabled then fePersOpen ++ persVariant i companyName ++ fePersClose else ""

/-- The index-dependent call-to-action paragraph. -/
def ctaVariant (i : Nat) : String :=
  if i = 0 then feCta0 else if i = 1 then feCta1 else feCta2

/-- The conditional link block
(`(talentCommunityLink && index === 2) ? ... : (careerSiteLink ? ... : '')`). -/
def linkBlock (talentCommunityLink careerSiteLink companyName : String) (i : Nat) : String :=
  if talentCommunityLink ≠ "" ∧ i = 2 then feTalent1 ++ talentCommunityLink ++ feTalent2
  else if careerSiteLink ≠ "" then
    feCareer1 ++ companyName ++ feCareer2 ++ careerSiteLink ++ feCareer3
  else ""

/-- The three conditional company-collateral paragraphs of the header. -/
def condBlocks (benOpen : String) (i : Nat)
    (companyInfo companyMission companyBenefits : String) : String :=
  (if i = 0 ∧ companyInfo ≠ "" then feInfoOpen ++ companyInfo ++ feInfoClose else "") ++
  feGap ++
  (if i = 1 ∧ companyMission ≠ "" then feInfoOpen ++ companyMission ++ feInfoClose else "") ++
  feGap ++
  (if i = 2 ∧ companyBenefits ≠ "" then benOpen ++ companyBenefits ++ feBenClose else "")

/-- The initial template-literal part of a fallback email (everything the
source assigns to `emailContent` before the personalization `+=`). -/
def fbHeader (benOpen contextText : String)
    (companyInfo companyMission companyBenefits : String) (i : Nat) (title : String) :
    String :=
  feHead1 ++ title ++ feHead2 ++ contextText ++ feHead3 ++
  condBlocks benOpen i companyInfo companyMission companyBenefits

/-- The final `emailContent +=` chunk: call to action, link block, signature. -/
def fbTail (talentCommunityLink careerSiteLink companyName : String) (i : Nat) : String :=
  "\n      " ++ ctaVariant i ++ feGap ++
  linkBlock talentCommunityLink careerSiteLink companyName i ++ feSig

/-- `createEmailContent` shared template body (campaignAssistantAI.ts 806-892
and openai.ts 241-365): the three accumulation stages of the source. -/
def fallbackEmailHtml (benOpen contextText companyName : String)
    (companyInfo companyMission companyBenefits talentCommunityLink careerSiteLink : String)
    (enabled : Bool) (i : Nat) (title : String) : String :=
  fbHeader benOpen contextText companyInfo companyMission companyBenefits i title ++
  persBlock enabled i companyName ++
  fbTail talentCommunityLink careerSiteLink companyName i

/-! ## Campaign generator (campaignAssistantAI.ts) -/

structure SequenceAndExamples where
  steps : Nat
  duration : Nat
  examples : List String
deriving Repr, DecidableEq

/-- A catalog entry (`CampaignExample`). -/
structure CampaignExample where
  id : String
  campaignType : String
  goal : String
  sequenceAndExamples : SequenceAndExamples
  collateralToUse : List String
deriving Repr, DecidableEq

/-- A completed `CampaignDraft` as consumed by `generateCampaignFromDraft`
(`goal` is always present there; the other fields may still be absent). -/
structure FullDraft where
  goal : String
  matchedExampleId : Option String := none
  type : Option String := none
  targetAudience : Option String := none
  tone : Option String := none
  emailLength : Option String := none
  additionalContext : Option String := none
  enablePersonalization : Option Bool := none
  companyName : String := ""
  recruiterName : Option String := none
deriving Repr, DecidableEq

/-- The `campaignData` record of a generation result. -/
structure CampaignData where
  name : String := ""
  type : String := ""
  targetAudience : Option String := none
  campaignGoal : String := ""
  tone : Option String := none
  emailLength : String := ""
  companyName : String := ""
  recruiterName : Option String := none
  contentSources : List String := []
  aiInstructions : Option String := none
  enablePersonalization : Bool := false
deriving Repr, DecidableEq

/-- Result of campaign generation. -/
structure GenResult where
  campaignData : CampaignData
  emailSteps : List EmailStep
deriving Repr, DecidableEq

/-- The parsed JSON of the generator LLM's answer. -/
structure ParsedGenResult where
  campaignData : CampaignData
  emailSteps : List ParsedStep
deriving Repr, DecidableEq

/-- `createFallbackCampaign` (campaignAssistantAI.ts, lines 732-904). -/
def createFallbackCampaign (draft : FullDraft) (ex : CampaignExample)
    (coll : List CompanyCollateral) : GenResult :=
  let campaignData : CampaignData :=
    { name := draft.goal.take 50 ++ (if draft.goal.length > 50 then "..." else "")
      type := ex.campaignType
      targetAudience := draft.targetAudience
      campaignGoal := draft.goal
      tone := draft.tone
      emailLength := jsOrStr draft.emailLength "concise"
      companyName := draft.companyName
      recruiterName := draft.recruiterName
      contentSources := ex.collateralToUse
      aiInstructions := draft.additionalContext
      enablePersonalization := truthyB draft.enablePersonalization }
  let companyInfo := collateralSnippet coll "who_we_are"
  let companyBenefits := collateralSnippet coll "benefits"
  let companyMission := collateralSnippet coll "mission_statements"
  let talentCommunityLink := collateralLink coll "talent_community_link"
  let careerSiteLink := collateralLink coll "career_site_link"
  let emailSteps : List EmailStep :=
    ex.sequenceAndExamples.examples.enum.map (fun p =>
      { id := "step-" ++ toString (p.1 + 1)
        type := "email"
        subject := tokFirstName ++ ", " ++ jsToLower p.2
        content := fallbackEmailHtml feBenOpenA
          (jsOrStr draft.additionalContext emailDefaultContext) draft.companyName
          companyInfo companyMission companyBenefits talentCommunityLink careerSiteLink
          (truthyB draft.enablePersonalization) p.1 p.2
        delay := if p.1 = 0 then 0 else (p.1 : Int) * 2
        delayUnit := if p.1 = 0 then "immediately" else "business days" })
  { campaignData := campaignData, emailSteps := emailSteps }

/-- Per-step fixup of the parsed generator output
(campaignAssistantAI.ts, lines 614-621). -/
def mapParsedStep (i : Nat) (step : ParsedStep) : EmailStep :=
  { id := "step-" ++ toString (i + 1)
    type := jsOrStr step.type "email"
    subject := jsOrStr step.subject ("Follow-up " ++ toString (i + 1))
    content := jsOrStr step.content "Email content here..."
    delay := if i = 0 then 0 else jsOrInt step.delay ((i : Int) * 2)
    delayUnit := if i = 0 then "immediately" else jsOrStr step.delayUnit "business days" }

/-- Guideline-example resolution (campaignAssistantAI.ts, lines 369-380):
first by `matchedExampleId` (when truthy), then by goal text.  The catalog
lookups `findCampaignExampleById` / `findCampaignExampleByGoal` live in
`src/data/campaignExamples.ts` (outside the given sources) and are passed
here as functions. -/
def resolveExample (lookupById lookupByGoal : String → Option CampaignExample)
    (draft : FullDraft) : Option CampaignExample :=
  let byId : Option CampaignExample :=
    match draft.matchedExampleId with
    | some mid => if mid ≠ "" then lookupById mid else none
    | none => none
  match byId with
  | some ex => some ex
  | none => lookupByGoal draft.goal

/-- `generateCampaignFromDraft` (campaignAssistantAI.ts, lines 359-639).
`llm = none` models a failed call or unparseable output; the guideline check
happens before the `try` block, so its error propagates while everything
after it falls back to `createFallbackCampaign`. -/
def generateCampaignFromDraft (lookupById lookupByGoal : String → Option CampaignExample)
    (draft : FullDraft) (coll : List CompanyCollateral)
    (llm : Option ParsedGenResult) : Except String GenResult :=
  match resolveExample lookupById lookupByGoal draft with
  | none => .error "No matching campaign example found. Cannot proceed without a guideline."
  | some matchingExample =>
    match llm with
    | some parsed =>
      .ok { campaignData :=
              { parsed.campaignData with
                emailLength := jsOrStr draft.emailLength "concise"
                enablePersonalization := truthyB draft.enablePersonalization }
            emailSteps := parsed.emailSteps.enum.map (fun p => mapParsedStep p.1 p.2) }
    | none => .ok (createFallbackCampaign draft matchingExample coll)

/-! ## `generateCampaignSequence` (openai.ts, lines 53-397) -/

/-- The hard-coded three-step fallback sequence (openai.ts, lines 367-392). -/
def fallbackSequence (prompt : CampaignPrompt) (coll : List CompanyCollateral) :
    List EmailStep :=
  let companyInfo := collateralSnippet coll "who_we_are"
  let companyBenefits := collateralSnippet coll "benefits"
  let companyMission := collateralSnippet coll "mission_statements"
  let talentCommunityLink := collateralLink coll "talent_community_link"
  let careerSiteLink := collateralLink coll "career_site_link"
  let mkContent := fun (i : Nat) (title : String) =>
    fallbackEmailHtml feBenOpenB (jsOrStrV prompt.aiInstructions emailDefaultContext)
      prompt.companyName companyInfo companyMission companyBenefits
      talentCommunityLink careerSiteLink (truthyB prompt.enablePersonalization) i title
  [ { id := "step-1"
      type := "email"
      subject := tokFirstName ++ ", interested in a new opportunity?"
      content := mkContent 0 "Opportunity"
      delay := 0
      delayUnit := "immediately" },
    { id := "step-2"
      type := "email"
      subject := "Following up on healthcare opportunities"
      content := mkContent 1 "Follow-up"
      delay := 3
      delayUnit := "business days" },
    { id := "step-3"
      type := "email"
      subject := "Last follow-up - " ++ tokCompanyName ++ " opportunities"
      content := mkContent 2 "Final follow-up"
      delay := 5
      delayUnit := "business days" } ]

/-- `generateCampaignSequence`: parsed LLM steps validated per index, any
call/parse failure replaced by the fallback sequence. -/
def generateCampaignSequence (prompt : CampaignPrompt) (coll : List CompanyCollateral)
    (llm : Option (List ParsedStep)) : List EmailStep :=
  match llm with
  | some emailData => emailData.enum.map (fun p => mapSeqStep p.1 p.2)
  | none => fallbackSequence prompt coll

end CampaignTool

namespace CampaignTool

/-! ## Step editor (CampaignStepsEditor.tsx) -/

/-- The editor's built-in preview candidates (lines 42-47). -/
def testCandidates : List Candidate :=
  [ { name := "John Smith", company := "Memorial Healthcare",
      skills := ["Critical Care", "Emergency Response", "Patient Assessment"] },
    { name := "Sarah Johnson", company := "Baptist Health",
      skills := ["Pediatric Care", "Family Education", "Child Development"] },
    { name := "Michael Brown", company := "Jackson Health System",
      skills := ["Surgical Procedures", "Operating Room Protocols", "Sterile Technique"] },
    { name := "Emily Davis", company := "Cleveland Clinic",
      skills := ["Cardiac Care", "EKG Interpretation", "Heart Failure Management"] } ]

/-- `testCandidates.find(c => c.name === selectedTestCandidate) || testCandidates[0]`. -/
def resolveTestCandidate (selected : String) : Candidate :=
  match testCandidates.find? (fun c => c.name == selected) with
  | some c => c
  | none => testCandidates.headD { name := "", company := "", skills := [] }

/-- `applyBasicTokenReplacement` (CampaignStepsEditor.tsx, lines 327-338);
`companyName` / `recruiterName` come from the editor's `campaignData`. -/
def applyBasicTokenReplacement (selected : String) (companyName recruiterName : String)
    (content : String) : String :=
  let selectedCandidate := resolveTestCandidate selected
  jsReplaceAll
    (jsReplaceAll
      (jsReplaceAll
        (jsReplaceAll
          (jsReplaceAll content tokFirstName (firstNameOf selectedCandidate.name))
          tokCurrentCompany selectedCandidate.company)
        tokCompanyName companyName)
      tokYourName recruiterName)
    tokSkill (skillValue selectedCandidate.skills)

/-- `hasPersonalizationSection` (lines 386-389). -/
def hasPersonalizationSection (content : String) : Bool :=
  jsIncludes content startMarker && jsIncludes content endMarker

/-- The default HTML body of a freshly added step (lines 60-90). -/
def addStepDefaultContent : String :=
  "<table width=\"100%\" cellpadding=\"0\" cellspacing=\"0\" style=\"max-width: 600px; margin: 0 auto; font-family: Arial, sans-serif; line-height: 1.6;\">\n  <tr>\n    <td style=\"padding: 20px;\">\n      <h2 style=\"color: #333; font-size: 20px; margin: 0 0 15px 0;\">Hi \x7b\x7bFirst Name\x7d\x7d,</h2>\n      \n      <p style=\"color: #555; font-size: 16px; margin: 0 0 15px 0;\">\n        I wanted to follow up on our previous conversation about opportunities at <strong style=\"color: #333;\">\x7b\x7bCompany Name\x7d\x7d</strong>.\n      </p>\n      \n      <p style=\"color: #555; font-size: 16px; margin: 0 0 15px 0;\">\n        We have some exciting new positions that might be a perfect fit for your background and career goals:\n      </p>\n      \n      <ul style=\"color: #555; font-size: 16px; margin: 15px 0; padding-left: 20px;\">\n        <li style=\"margin-bottom: 8px;\">Competitive compensation packages</li>\n        <li style=\"margin-bottom: 8px;\">Comprehensive benefits</li>\n        <li style=\"margin-bottom: 8px;\">Professional development opportunities</li>\n      </ul>\n      \n      <p style=\"color: #555; font-size: 16px; margin: 15px 0;\">\n        Would you be available for a brief call this week? \n        <a href=\"#\" style=\"color: #0066cc; text-decoration: none; font-weight: bold;\">Schedule a conversation</a>\n      </p>\n      \n      <p style=\"color: #555; font-size: 16px; margin: 15px 0 0 0;\">\n        Best regards,<br>\n        <strong style=\"color: #333;\">\x7b\x7bYour Name\x7d\x7d</strong>\n      </p>\n    </td>\n  </tr>\n</table>"

/-- `addEmailStep` (lines 55-96), restricted to its effect on the step list. -/
def addEmailStep (emailSteps : List EmailStep) : List EmailStep :=
  let newStep : EmailStep :=
    { id := "step-" ++ toString (emailSteps.length + 1)
      type := "email"
      subject := "Following up on our conversation"
      content := addStepDefaultContent
      delay := if emailSteps.length = 0 then 0 else 3
      delayUnit := if emailSteps.length = 0 then "immediately" else "business days" }
  emailSteps ++ [newStep]

/-- `removeEmailStep` (lines 98-107), restricted to its effect on the step list. -/
def removeEmailStep (stepId : String) (emailSteps : List EmailStep) : List EmailStep :=
  emailSteps.filter (fun step => step.id != stepId)

/-- `duplicateEmailStep` (lines 109-127); `now` is the `Date.now()` reading. -/
def duplicateEmailStep (now : Nat) (stepId : String) (emailSteps : List EmailStep) :
    List EmailStep :=
  match emailSteps.find? (fun step => step.id == stepId) with
  | none => emailSteps
  | some stepToDuplicate =>
    let newStep : EmailStep :=
      { stepToDuplicate with
        id := "step-" ++ toString now
        subject := stepToDuplicate.subject ++ " (Copy)"
        delay := 3
        delayUnit := "business days" }
    let stepIndex := emailSteps.findIdx (fun step => step.id == stepId)
    emailSteps.take (stepIndex + 1) ++ [newStep] ++ emailSteps.drop (stepIndex + 1)

/-- The editor's `campaignData` prop as consulted by validation; untyped in
the source (`any`), so each field may be absent. -/
structure EditorCampaignData where
  name : Option String := none
  type : Option String := none
  targetAudience : Option String := none
  campaignGoal : Option String := none
  tone : Option String := none
  companyName : Option String := none
  recruiterName : Option String := none
  contentSources : Option (List String) := none
  aiInstructions : Option String := none
  enablePersonalization : Option Bool := none
deriving Repr, DecidableEq

/-- JS truthiness of `x?.trim()`: absent, or blank after trimming, is falsy. -/
def truthyTrim : Option String → Bool
  | none => false
  | some s => jsTrim s ≠ ""

/-- `validateCampaignData` (lines 129-173). -/
def validateCampaignData (campaignData : EditorCampaignData) (emailSteps : List EmailStep)
    (userId : Option String) (projectId : Option String) : List String :=
  (if ¬ truthyTrim campaignData.name then ["Campaign name is required"] else []) ++
  (if ¬ truthyS campaignData.type then ["Campaign type is required"] else []) ++
  (if ¬ truthyTrim campaignData.targetAudience then ["Target audience is required"] else []) ++
  (if ¬ truthyTrim campaignData.campaignGoal then ["Campaign goal is required"] else []) ++
  (if emailSteps.length = 0 then ["At least one email step is required"] else []) ++
  (if ¬ truthyS userId then ["User authentication required"] else []) ++
  (if ¬ truthyS projectId then ["Project selection required"] else []) ++
  emailSteps.enum.flatMap (fun p =>
    (if jsTrim p.2.subject = "" then
      ["Email step " ++ toString (p.1 + 1) ++ ": Subject is required"] else []) ++
    (if jsTrim p.2.content = "" then
      ["Email step " ++ toString (p.1 + 1) ++ ": Content is required"] else []) ++
    (if p.2.delayUnit ≠ "immediately" ∧ p.2.delayUnit ≠ "business days" then
      ["Email step " ++ toString (p.1 + 1) ++ ": Invalid delay unit (must be \x27immediately\x27 or \x27business days\x27)"] else []))

/-- The decision `handleSave` reaches before any persistence call
(lines 175-257): validation failure surfaces one aggregated error and
returns without touching `createCampaign` / `updateCampaign`. -/
inductive SaveAction where
  | blocked (message : String)
  | persist (updateExisting : Bool)
deriving Repr, DecidableEq

/-- `handleSave` up to the persistence boundary (lines 175-239). -/
def handleSaveAction (campaignData : EditorCampaignData) (emailSteps : List EmailStep)
    (userId : Option String) (projectId : Option String)
    (editingCampaignId : Option String) : SaveAction :=
  let validationErrors := validateCampaignData campaignData emailSteps userId projectId
  if validationErrors.length > 0 then
    .blocked ("Please fix the following issues: " ++ String.intercalate ", " validationErrors)
  else
    .persist (truthyS editingCampaignId)

end CampaignTool

namespace CampaignTool

/-! ## A small theory of literal occurrences and global replacement -/

/-- No nonempty proper prefix of `pat` is a suffix of `a`; hence no occurrence
of `pat` can start inside `a` and continue past its right end. -/
def SpanFree (pat a : List Char) : Prop :=
  ∀ t ∈ a.tails, t = [] ∨ pat.length ≤ t.length ∨ t.isPrefixOf pat = false

instance (pat a : List Char) : Decidable (SpanFree pat a) := by
  unfold SpanFree; infer_instance

/-- A fragment that neither contains an occurrence of `pat` nor can start one
that spans past its right end. -/
def Clean (pat a : List Char) : Prop := countOcc pat a = 0 ∧ SpanFree pat a

instance (pat a : List Char) : Decidable (Clean pat a) := by
  unfold Clean; infer_instance

/-- String-level `Clean`. -/
def CleanS (pat s : String) : Prop := Clean pat.data s.data

instance (pat s : String) : Decidable (CleanS pat s) := by
  unfold CleanS; infer_instance

/-- Segments joined by a separator (the shape `s₀ ++ sep ++ s₁ ++ sep ++ …`). -/
def joinSep (sep : List Char) : List (List Char) → List Char
  | [] => []
  | [a] => a
  | a :: b :: rest => a ++ sep ++ joinSep sep (b :: rest)

/-- String-level `joinSep`. -/
def joinSepS (sep : String) (segs : List String) : String :=
  ⟨joinSep sep.data (segs.map String.data)⟩

/-- Clean with respect to both personalization markers. -/
def MarkerClean (s : String) : Prop := CleanS startMarker s ∧ CleanS endMarker s

instance (s : String) : Decidable (MarkerClean s) := by
  unfold MarkerClean; infer_instance

/-- Position of each conversational state in the flow order. -/
def stateRank : String → Nat
  | "goal" => 0
  | "audience" => 1
  | "tone" => 2
  | "context" => 3
  | "personalization" => 4
  | "review" => 5
  | "generate" => 6
  | _ => 0

/-- A draft whose fields were filled in the flow's order (the spec's
lifecycle invariant): each set field presupposes the earlier ones. -/
def Orderly (d : CampaignDraft) : Prop :=
  (truthyS d.targetAudience = true → truthyS d.goal = true) ∧
  (truthyS d.tone = true → truthyS d.targetAudience = true) ∧
  (truthyS d.additionalContext = true → truthyS d.tone = true)

instance (d : CampaignDraft) : Decidable (Orderly d) := by
  unfold Orderly; infer_instance


/-! ## Concrete inputs used by witnesses and counterexamples -/

/-- The `matchedExampleId` branch of the guideline resolution alone. -/
def idLookup (lookupById : String → Option CampaignExample) (draft : FullDraft) :
    Option CampaignExample :=
  match draft.matchedExampleId with
  | some mid => if mid ≠ "" then lookupById mid else none
  | none => none

def exCat : CampaignExample :=
  { id := "talent-community"
    campaignType := "nurture"
    goal := "Build a talent community"
    sequenceAndExamples :=
      { steps := 3, duration := 10, examples := ["Join us", "Why us", "Last call"] }
    collateralToUse := ["who_we_are"] }

def lgCat : String → Option CampaignExample :=
  fun g => if g = "Build a talent community" then some exCat else none

def dC3 : FullDraft := { goal := "Build a talent community" }

def dC3none : FullDraft := { goal := "something unmatched" }

def candW : Candidate :=
  { name := "John Smith", company := "Memorial Healthcare"
    skills := ["Critical Care", "Emergency Response"] }

def cdW : EditorCampaignData :=
  { name := some "Q3 outreach", type := some "nurture", targetAudience := some "   "
    campaignGoal := some "Build a talent community", companyName := some "Acme" }

def c1Draft : CampaignDraft :=
  { goal := some "Build a talent community", targetAudience := some "Oncology nurses"
    tone := some "professional" }

def c1Parsed : ParsedResponse :=
  { campaignDraft := some { additionalContext := some "User sent a short greeting" } }

def c7Draft : CampaignDraft := { goal := some "Build a talent community" }

def c5Draft : CampaignDraft :=
  { goal := some "Keep warm", targetAudience := some "ICU nurses", tone := some "formal"
    additionalContext := some "ctx", enablePersonalization := some false }

def c5Parsed : ParsedResponse :=
  { campaignDraft := some { goal := some "DIFFERENT" }, nextStep := some "goal" }

def dC2 : FullDraft := { goal := "Build a talent community", matchedExampleId := some "talent-community" }

def c2Parsed : ParsedGenResult :=
  { campaignData := {}
    emailSteps :=
      [ { delayUnit := some "immediately", delay := some 0 },
        { delayUnit := some "immediately", delay := some 1 } ] }

def dC6 : FullDraft :=
  { goal := "Build a talent community", matchedExampleId := some "talent-community"
    enablePersonalization := some true }

def c6Parsed : ParsedGenResult :=
  { campaignData := {}, emailSteps := [{ content := some "hello" }] }

def dW6 : FullDraft :=
  { goal := "Build a talent community", enablePersonalization := some true
    companyName := "Acme" }

def exW6 : CampaignExample :=
  { id := "e", campaignType := "nurture", goal := "g"
    sequenceAndExamples := { steps := 1, duration := 1, examples := ["Hi"] }
    collateralToUse := [] }

def dfltStep : EmailStep :=
  { id := "", type := "", subject := "", content := "", delay := 0, delayUnit := "" }

def c4Cand : Candidate :=
  { name := "John Smith", company := "Memorial Healthcare", skills := ["Critical Care"] }


def recognizedTokens : List String :=
  [tokFirstName, tokCurrentCompany, tokCompanyName, tokYourName, tokSkill]

def allTokens : List String :=
  [tokFirstName, tokCurrentCompany, tokCompanyName, tokYourName, tokSkill,
   tokRecruiterName]

theorem bool_eq_of_iff {x y : Bool} (h : x = true ↔ y = true) : x = y := by
  cases x <;> cases y <;> simp_all

theorem spanFree_nil (pat : List Char) : SpanFree pat [] := by
  intro t ht
  simp only [List.tails, List.mem_singleton] at ht
  exact Or.inl ht

theorem spanFree_cons {pat a : List Char} {c : Char} (h : SpanFree pat (c :: a)) :
    SpanFree pat a := by
  intro t ht
  exact h t (by rw [List.tails_cons]; exact List.mem_cons_of_mem _ ht)

theorem clean_nil (pat : List Char) : Clean pat [] :=
  ⟨rfl, spanFree_nil pat⟩

theorem clean_cons {pat a : List Char} {c : Char} (h : Clean pat (c :: a)) :
    Clean pat a := by
  refine ⟨?_, spanFree_cons h.2⟩
  have := h.1
  simp only [countOcc] at this
  omega

theorem countOcc_pos_of_prefix {pat a : List Char} (hp : pat ≠ []) (h : pat <+: a) :
    0 < countOcc pat a := by
  cases a with
  | nil =>
    cases pat with
    | nil => exact absurd rfl hp
    | cons p ps => obtain ⟨t, ht⟩ := h; simp at ht
  | cons c rest =>
    have hb : pat.isPrefixOf (c :: rest) = true := List.isPrefixOf_iff_prefix.mpr h
    simp [countOcc, hb]

/-- If `pat` already fails to match before the end of the span-free, occurrence-
free fragment `a`, appending anything cannot create a match at its start. -/
theorem not_isPrefixOf_of_clean {pat a x : List Char} (ha : a ≠ []) (hp : pat ≠ [])
    (hc : Clean pat a) : pat.isPrefixOf (a ++ x) = false := by
  cases hy : pat.isPrefixOf (a ++ x) with
  | false => rfl
  | true =>
    exfalso
    have hpp : pat <+: a ++ x := List.isPrefixOf_iff_prefix.mp hy
    by_cases hl : pat.length ≤ a.length
    · have hpa : pat <+: a := by
        have h1 : pat = (a ++ x).take pat.length := List.prefix_iff_eq_take.mp hpp
        rw [List.take_append_of_le_length hl] at h1
        rw [h1]; exact List.take_prefix _ _
      have hpos := countOcc_pos_of_prefix hp hpa
      have hz := hc.1
      omega
    · push_neg at hl
      have hap : a <+: pat :=
        List.prefix_of_prefix_length_le (List.prefix_append a x) hpp (by omega)
      rcases hc.2 a ((List.mem_tails _ _).mpr (List.suffix_refl a)) with h | h | h
      · exact ha h
      · omega
      · have hb : a.isPrefixOf pat = true := List.isPrefixOf_iff_prefix.mpr hap
        rw [h] at hb
        exact Bool.noConfusion hb

/-- A match of `pat` at the start of `a ++ b` with span-free `a` is decided by
`a` alone. -/
theorem isPrefixOf_append_eq {pat a b : List Char} (ha : a ≠ []) (hp : pat ≠ [])
    (h : SpanFree pat a) : pat.isPrefixOf (a ++ b) = pat.isPrefixOf a := by
  apply bool_eq_of_iff
  rw [List.isPrefixOf_iff_prefix, List.isPrefixOf_iff_prefix]
  constructor
  · intro hpp
    by_cases hl : pat.length ≤ a.length
    · have h1 : pat = (a ++ b).take pat.length := List.prefix_iff_eq_take.mp hpp
      rw [List.take_append_of_le_length hl] at h1
      rw [h1]; exact List.take_prefix _ _
    · exfalso
      push_neg at hl
      have hap : a <+: pat :=
        List.prefix_of_prefix_length_le (List.prefix_append a b) hpp (by omega)
      rcases h a ((List.mem_tails _ _).mpr (List.suffix_refl a)) with hx | hx | hx
      · exact ha hx
      · omega
      · have hb2 : a.isPrefixOf pat = true := List.isPrefixOf_iff_prefix.mpr hap
        rw [hx] at hb2
        exact Bool.noConfusion hb2
  · intro hpa
    exact hpa.trans (List.prefix_append a b)

/-- Occurrence counting distributes over append when no occurrence can span
the seam from the left part. -/
theorem countOcc_append {pat : List Char} (hp : pat ≠ []) (b : List Char) :
    ∀ a, SpanFree pat a → countOcc pat (a ++ b) = countOcc pat a + countOcc pat b := by
  intro a
  induction a with
  | nil => intro _; simp [countOcc]
  | cons c a' ih =>
    intro h
    have hpre : pat.isPrefixOf ((c :: a') ++ b) = pat.isPrefixOf (c :: a') :=
      isPrefixOf_append_eq (by simp) hp h
    have hassoc : (c :: a') ++ b = c :: (a' ++ b) := rfl
    rw [hassoc] at hpre ⊢
    simp only [countOcc]
    rw [ih (spanFree_cons h), hpre]
    omega

theorem suffix_of_append_right {t a b : List Char} (h : t <:+ a ++ b)
    (hlen : t.length ≤ b.length) : t <:+ b := by
  obtain ⟨u, hu⟩ := h
  have hul : u.length + t.length = a.length + b.length := by
    have := congrArg List.length hu; simpa using this
  have h1 : (a ++ b).drop u.length = t := by
    rw [← hu]; exact List.drop_left u t
  have h2 : (a ++ b).drop u.length = a.drop u.length ++ b.drop (u.length - a.length) :=
    List.drop_append_eq_append_drop
  have h3 : a.drop u.length = [] := by
    apply List.drop_eq_nil_of_le; omega
  rw [h2, h3, List.nil_append] at h1
  rw [← h1]
  exact List.drop_suffix _ _

theorem suffix_split_of_long {t a b : List Char} (h : t <:+ a ++ b)
    (hlen : b.length < t.length) : ∃ ta, ta <:+ a ∧ ta ≠ [] ∧ t = ta ++ b := by
  obtain ⟨u, hu⟩ := h
  have hul : u.length + t.length = a.length + b.length := by
    have := congrArg List.length hu; simpa using this
  have hua : u.length < a.length := by omega
  have h1 : (a ++ b).drop u.length = t := by
    rw [← hu]; exact List.drop_left u t
  have h2 : (a ++ b).drop u.length = a.drop u.length ++ b :=
    List.drop_append_of_le_length (Nat.le_of_lt hua)
  refine ⟨a.drop u.length, List.drop_suffix _ _, ?_, by rw [← h1, h2]⟩
  intro hnil
  have := congrArg List.length hnil
  simp at this
  omega

theorem spanFree_append {pat a b : List Char} (ha : SpanFree pat a)
    (hb : SpanFree pat b) : SpanFree pat (a ++ b) := by
  intro t ht
  rw [List.mem_tails] at ht
  by_cases h0 : t = []
  · exact Or.inl h0
  by_cases h1 : pat.length ≤ t.length
  · exact Or.inr (Or.inl h1)
  push_neg at h1
  refine Or.inr (Or.inr ?_)
  by_cases htb : t.length ≤ b.length
  · rcases hb t ((List.mem_tails _ _).mpr (suffix_of_append_right ht htb)) with h | h | h
    · exact absurd h h0
    · omega
    · exact h
  · push_neg at htb
    obtain ⟨ta, hta, hne, hteq⟩ := suffix_split_of_long ht htb
    cases hy : t.isPrefixOf pat with
    | false => rfl
    | true =>
      exfalso
      have htp : t <+: pat := List.isPrefixOf_iff_prefix.mp hy
      have hta_t : ta <+: t := by rw [hteq]; exact List.prefix_append ta b
      have hta_p : ta <+: pat := hta_t.trans htp
      have hlen2 : ta.length < pat.length := by
        have h3 := congrArg List.length hteq
        simp at h3
        omega
      rcases ha ta ((List.mem_tails _ _).mpr hta) with h | h | h
      · exact hne h
      · omega
      · have hb2 : ta.isPrefixOf pat = true := List.isPrefixOf_iff_prefix.mpr hta_p
        rw [h] at hb2
        exact Bool.noConfusion hb2

theorem spanFree_append_right {pat a b : List Char} (hlen : pat.length ≤ b.length + 1)
    (hb : SpanFree pat b) : SpanFree pat (a ++ b) := by
  intro t ht
  rw [List.mem_tails] at ht
  by_cases h0 : t = []
  · exact Or.inl h0
  by_cases h1 : pat.length ≤ t.length
  · exact Or.inr (Or.inl h1)
  push_neg at h1
  have htb : t.length ≤ b.length := by omega
  rcases hb t ((List.mem_tails _ _).mpr (suffix_of_append_right ht htb)) with h | h | h
  · exact Or.inl h
  · exact Or.inr (Or.inl h)
  · exact Or.inr (Or.inr h)

theorem clean_append {pat a b : List Char} (hp : pat ≠ []) (ha : Clean pat a)
    (hb : Clean pat b) : Clean pat (a ++ b) := by
  refine ⟨?_, spanFree_append ha.2 hb.2⟩
  rw [countOcc_append hp b a ha.2, ha.1, hb.1]

theorem clean_ite {pat : List Char} {c : Prop} [Decidable c] {x y : List Char}
    (hx : Clean pat x) (hy : Clean pat y) : Clean pat (if c then x else y) := by
  split <;> assumption

/-- Counting inside a three-part concatenation whose outer parts are clean. -/
theorem countOcc_mid {pat h p t : List Char} (hpat : pat ≠ []) (hh : Clean pat h)
    (hsp : SpanFree pat p) (ht : countOcc pat t = 0) :
    countOcc pat (h ++ p ++ t) = countOcc pat p := by
  rw [List.append_assoc, countOcc_append hpat (p ++ t) h hh.2, hh.1,
    countOcc_append hpat t p hsp, ht]
  omega

theorem replaceAllFuel_nil (pat rep : List Char) (fuel : Nat) :
    replaceAllFuel pat rep fuel [] = [] := by
  cases fuel <;> rfl

/-- The fuel is irrelevant as long as it covers the list length. -/
theorem replaceAllFuel_congr (pat rep : List Char) :
    ∀ fuel1, ∀ fuel2, ∀ s : List Char, s.length ≤ fuel1 → s.length ≤ fuel2 →
      replaceAllFuel pat rep fuel1 s = replaceAllFuel pat rep fuel2 s := by
  intro fuel1
  induction fuel1 with
  | zero =>
    intro fuel2 s hs1 _
    have : s = [] := List.eq_nil_of_length_eq_zero (Nat.le_zero.mp hs1)
    subst this
    rw [replaceAllFuel_nil, replaceAllFuel_nil]
  | succ f1 ih =>
    intro fuel2 s hs1 hs2
    cases s with
    | nil => rw [replaceAllFuel_nil, replaceAllFuel_nil]
    | cons c rest =>
      cases fuel2 with
      | zero => simp at hs2
      | succ f2 =>
        show (if pat ≠ [] ∧ pat.isPrefixOf (c :: rest) then
            rep ++ replaceAllFuel pat rep f1 ((c :: rest).drop pat.length)
          else c :: replaceAllFuel pat rep f1 rest) = _
        rw [show replaceAllFuel pat rep (f2 + 1) (c :: rest) =
            (if pat ≠ [] ∧ pat.isPrefixOf (c :: rest) then
              rep ++ replaceAllFuel pat rep f2 ((c :: rest).drop pat.length)
            else c :: replaceAllFuel pat rep f2 rest) from rfl]
        simp only [List.length_cons] at hs1 hs2
        split
        · rename_i hcond
          have hplen : 0 < pat.length := List.length_pos.mpr hcond.1
          have hd : ((c :: rest).drop pat.length).length ≤ f1 := by
            simp only [List.length_drop, List.length_cons]; omega
          have hd2 : ((c :: rest).drop pat.length).length ≤ f2 := by
            simp only [List.length_drop, List.length_cons]; omega
          rw [ih f2 _ hd hd2]
        · rw [ih f2 rest (by omega) (by omega)]

/-- The one-step unfolding of `replaceAllL` on a nonempty list. -/
theorem replaceAllL_cons (pat rep : List Char) (c : Char) (rest : List Char) :
    replaceAllL pat rep (c :: rest) =
      if pat ≠ [] ∧ pat.isPrefixOf (c :: rest) then
        rep ++ replaceAllL pat rep ((c :: rest).drop pat.length)
      else
        c :: replaceAllL pat rep rest := by
  show (if pat ≠ [] ∧ pat.isPrefixOf (c :: rest) then
      rep ++ replaceAllFuel pat rep rest.length ((c :: rest).drop pat.length)
    else c :: replaceAllFuel pat rep rest.length rest) = _
  unfold replaceAllL
  split
  · rename_i hcond
    have hplen : 0 < pat.length := List.length_pos.mpr hcond.1
    rw [replaceAllFuel_congr pat rep rest.length _ _
      (by simp only [List.length_drop, List.length_cons]; omega) (Nat.le_refl _)]
  · rfl

/-- Replacement is the identity when there is no occurrence. -/
theorem replaceAllL_of_countOcc_zero {pat rep : List Char} (hp : pat ≠ []) :
    ∀ s, countOcc pat s = 0 → replaceAllL pat rep s = s := by
  intro s
  induction s with
  | nil => intro _; simp [replaceAllL, replaceAllFuel_nil]
  | cons c rest ih =>
    intro h
    simp only [countOcc] at h
    have hpre : pat.isPrefixOf (c :: rest) = false := by
      cases hx : pat.isPrefixOf (c :: rest)
      · rfl
      · rw [hx] at h; simp at h
    rw [replaceAllL_cons]
    rw [if_neg (by simp [hpre])]
    have : countOcc pat rest = 0 := by omega
    rw [ih this]

/-- Replacing across the first occurrence: a clean left part passes through
and the occurrence itself becomes the replacement. -/
theorem replaceAllL_cross {pat rep : List Char} (hp : pat ≠ []) :
    ∀ a b, Clean pat a →
      replaceAllL pat rep (a ++ pat ++ b) = a ++ rep ++ replaceAllL pat rep b := by
  intro a
  induction a with
  | nil =>
    intro b _
    simp only [List.nil_append]
    cases pat with
    | nil => exact absurd rfl hp
    | cons p ps =>
      have hmatch : (p :: ps).isPrefixOf ((p :: ps) ++ b) = true :=
        List.isPrefixOf_iff_prefix.mpr (List.prefix_append _ b)
      have hdrop : ((p :: ps) ++ b).drop (p :: ps).length = b := List.drop_left _ _
      rw [show (p :: ps) ++ b = p :: (ps ++ b) from rfl] at hmatch hdrop
      show replaceAllL (p :: ps) rep (p :: (ps ++ b)) = _
      rw [replaceAllL_cons]
      rw [if_pos ⟨by simp, hmatch⟩, hdrop]
  | cons c a' ih =>
    intro b hc
    have hnp : pat.isPrefixOf ((c :: a') ++ (pat ++ b)) = false :=
      not_isPrefixOf_of_clean (by simp) hp hc
    have ih2 := ih b (clean_cons hc)
    simp only [List.cons_append, List.append_assoc] at hnp ih2 ⊢
    rw [replaceAllL_cons]
    rw [if_neg (by simp [hnp])]
    rw [ih2]

/-- Global replacement rewrites every one of the `N` separator occurrences. -/
theorem replaceAllL_joinSep {pat rep : List Char} (hp : pat ≠ []) :
    ∀ segs, (∀ s ∈ segs, Clean pat s) →
      replaceAllL pat rep (joinSep pat segs) = joinSep rep segs := by
  intro segs
  induction segs with
  | nil => intro _; simp [joinSep, replaceAllL, replaceAllFuel_nil]
  | cons a rest ih =>
    intro h
    cases rest with
    | nil =>
      simp only [joinSep]
      exact replaceAllL_of_countOcc_zero hp a (h a (by simp)).1
    | cons b rest' =>
      simp only [joinSep]
      rw [replaceAllL_cross hp a _ (h a (by simp))]
      rw [ih (fun s hs => h s (by simp [hs]))]

end CampaignTool
namespace CampaignTool

/-! ## Helper lemmas about the embedded operations -/

theorem mem_enum_get {α : Type} {l : List α} (i : Nat) (h : i < l.length) :
    (i, l.get ⟨i, h⟩) ∈ l.enum := by
  have h2 : i < l.enum.length := by rw [List.enum_length]; exact h
  have h3 : l.enum.get ⟨i, h2⟩ = (i, l.get ⟨i, h⟩) := by
    simp [List.get_eq_getElem, List.getElem_enum]
  rw [← h3]
  exact List.get_mem _ _ _

theorem resolveExample_eq_none_iff (lid lg : String → Option CampaignExample)
    (draft : FullDraft) :
    resolveExample lid lg draft = none ↔
      idLookup lid draft = none ∧ lg draft.goal = none := by
  unfold resolveExample idLookup
  cases hmid : draft.matchedExampleId with
  | none => simp
  | some mid =>
    by_cases h : mid = ""
    · simp [h]
    · simp only [h, ne_eq, not_false_iff, if_true]
      cases lid mid <;> simp

/-! ## Claim C3 -/

/-- Claim C3 (confirmed): `generateCampaignFromDraft` produces its
no-guideline error iff both the `matchedExampleId` lookup and the goal-text
lookup fail to resolve a catalog example; whenever either resolves, every LLM
outcome (parsed success or call/parse failure) yields an ok result, the
failure case via the deterministic fallback campaign. -/
theorem C3_no_guideline_iff (lid lg : String → Option CampaignExample)
    (draft : FullDraft) (coll : List CompanyCollateral) (llm : Option ParsedGenResult) :
    ((∃ e, generateCampaignFromDraft lid lg draft coll llm = .error e) ↔
      (idLookup lid draft = none ∧ lg draft.goal = none)) ∧
    ((idLookup lid draft ≠ none ∨ lg draft.goal ≠ none) →
      ∃ r, generateCampaignFromDraft lid lg draft coll llm = .ok r) := by
  have hiff := resolveExample_eq_none_iff lid lg draft
  constructor
  · constructor
    · intro ⟨e, he⟩
      rw [← hiff]
      unfold generateCampaignFromDraft at he
      cases hres : resolveExample lid lg draft with
      | none => rfl
      | some ex =>
        rw [hres] at he
        cases llm <;> simp at he
    · intro h
      have hres : resolveExample lid lg draft = none := hiff.mpr h
      refine ⟨"No matching campaign example found. Cannot proceed without a guideline.", ?_⟩
      unfold generateCampaignFromDraft
      rw [hres]
  · intro h
    cases hres2 : resolveExample lid lg draft with
    | none =>
      rcases hiff.mp hres2 with ⟨h1, h2⟩
      tauto
    | some ex =>
      unfold generateCampaignFromDraft
      rw [hres2]
      cases llm with
      | none => exact ⟨_, rfl⟩
      | some parsed => exact ⟨_, rfl⟩

/-- Witness for C3: with an id lookup that always fails but a goal lookup
that resolves, generation succeeds even though the LLM call failed. -/
theorem C3_witness :
    (idLookup (fun _ => none) dC3 ≠ none ∨ lgCat dC3.goal ≠ none) ∧
    ∃ r, generateCampaignFromDraft (fun _ => none) lgCat dC3 [] none = .ok r :=
  ⟨Or.inr (by decide),
    (C3_no_guideline_iff (fun _ => none) lgCat dC3 [] none).2 (Or.inr (by decide))⟩

/-! ## Claim C10 -/

/-- Claim C10 (confirmed): `generatePersonalizedContent` is total over its
inputs; when either marker literal is missing it skips the LLM call and
returns the token-replaced content for every LLM outcome, and on LLM failure
it returns the token-replaced original content. -/
theorem C10_total_fallback (emailContent : String) (candidate : Candidate) :
    ((¬ (jsIncludes emailContent startMarker = true ∧
          jsIncludes emailContent endMarker = true)) →
      ∀ llm, generatePersonalizedContent emailContent candidate llm =
        applyTokenReplacement emailContent candidate) ∧
    (generatePersonalizedContent emailContent candidate none =
      applyTokenReplacement emailContent candidate) := by
  constructor
  · intro h llm
    have h2 : ¬ (jsIncludes emailContent startMarker = true) ∨
        ¬ (jsIncludes emailContent endMarker = true) := by tauto
    unfold generatePersonalizedContent
    rw [if_pos h2]
  · unfold generatePersonalizedContent
    split
    · rfl
    · rfl

/-- Witness for C10: marker-free content with a successful LLM outcome that
is nevertheless ignored. -/
theorem C10_witness :
    generatePersonalizedContent "<p>hi</p>" candW (some "ignored") =
      applyTokenReplacement "<p>hi</p>" candW :=
  (C10_total_fallback "<p>hi</p>" candW).1 (by decide) (some "ignored")

/-! ## Claim C9 -/

/-- Claim C9 fails on the code (code bug): after two `addEmailStep` calls the
ids are distinct, but removing "step-1" and adding again derives the new id
from the current length and assigns "step-2" twice. -/
theorem C9_duplicate_ids :
    (addEmailStep (addEmailStep [])).map (fun s => s.id) = ["step-1", "step-2"] ∧
    (addEmailStep (removeEmailStep "step-1" (addEmailStep (addEmailStep [])))).map
        (fun s => s.id) = ["step-2", "step-2"] ∧
    ¬ ((addEmailStep (removeEmailStep "step-1" (addEmailStep (addEmailStep [])))).map
        (fun s => s.id)).Nodup := by
  refine ⟨?_, ?_, ?_⟩ <;> decide

end CampaignTool

namespace CampaignTool

/-! ## Claim C8 -/

/-- Claim C8 (confirmed): any validation failure blocks the save before the
persistence calls, surfacing one aggregated message joining every collected
error; each violated rule contributes its message to the list (all of them,
not only the first), and an empty target audience contributes
"Target audience is required". -/
theorem C8_validation_aggregates (campaignData : EditorCampaignData)
    (emailSteps : List EmailStep) (userId projectId editingId : Option String) :
    (validateCampaignData campaignData emailSteps userId projectId ≠ [] →
      handleSaveAction campaignData emailSteps userId projectId editingId =
        .blocked ("Please fix the following issues: " ++ String.intercalate ", "
          (validateCampaignData campaignData emailSteps userId projectId))) ∧
    (truthyTrim campaignData.targetAudience = false →
      "Target audience is required" ∈
        validateCampaignData campaignData emailSteps userId projectId) ∧
    (truthyTrim campaignData.name = false →
      "Campaign name is required" ∈
        validateCampaignData campaignData emailSteps userId projectId) ∧
    (truthyS campaignData.type = false →
      "Campaign type is required" ∈
        validateCampaignData campaignData emailSteps userId projectId) ∧
    (truthyTrim campaignData.campaignGoal = false →
      "Campaign goal is required" ∈
        validateCampaignData campaignData emailSteps userId projectId) ∧
    (emailSteps.length = 0 →
      "At least one email step is required" ∈
        validateCampaignData campaignData emailSteps userId projectId) ∧
    (truthyS userId = false →
      "User authentication required" ∈
        validateCampaignData campaignData emailSteps userId projectId) ∧
    (truthyS projectId = false →
      "Project selection required" ∈
        validateCampaignData campaignData emailSteps userId projectId) ∧
    (∀ i, ∀ h : i < emailSteps.length,
      (jsTrim (emailSteps.get ⟨i, h⟩).subject = "" →
        ("Email step " ++ toString (i + 1) ++ ": Subject is required") ∈
          validateCampaignData campaignData emailSteps userId projectId) ∧
      (jsTrim (emailSteps.get ⟨i, h⟩).content = "" →
        ("Email step " ++ toString (i + 1) ++ ": Content is required") ∈
          validateCampaignData campaignData emailSteps userId projectId) ∧
      ((emailSteps.get ⟨i, h⟩).delayUnit ≠ "immediately" ∧
          (emailSteps.get ⟨i, h⟩).delayUnit ≠ "business days" →
        ("Email step " ++ toString (i + 1) ++
            ": Invalid delay unit (must be \x27immediately\x27 or \x27business days\x27)") ∈
          validateCampaignData campaignData emailSteps userId projectId)) := by
  refine ⟨?_, ?_, ?_, ?_, ?_, ?_, ?_, ?_, ?_⟩
  · intro hne
    unfold handleSaveAction
    rw [if_pos]
    exact List.length_pos.mpr hne
  · intro hb
    have hmem : "Target audience is required" ∈
        (if ¬ truthyTrim campaignData.targetAudience = true
          then ["Target audience is required"] else []) := by
      rw [if_pos (by simp [hb])]; simp
    unfold validateCampaignData
    simp only [List.mem_append]
    tauto
  · intro hb
    have hmem : "Campaign name is required" ∈
        (if ¬ truthyTrim campaignData.name = true
          then ["Campaign name is required"] else []) := by
      rw [if_pos (by simp [hb])]; simp
    unfold validateCampaignData
    simp only [List.mem_append]
    tauto
  · intro hb
    have hmem : "Campaign type is required" ∈
        (if ¬ truthyS campaignData.type = true
          then ["Campaign type is required"] else []) := by
      rw [if_pos (by simp [hb])]; simp
    unfold validateCampaignData
    simp only [List.mem_append]
    tauto
  · intro hb
    have hmem : "Campaign goal is required" ∈
        (if ¬ truthyTrim campaignData.campaignGoal = true
          then ["Campaign goal is required"] else []) := by
      rw [if_pos (by simp [hb])]; simp
    unfold validateCampaignData
    simp only [List.mem_append]
    tauto
  · intro hb
    have hmem : "At least one email step is required" ∈
        (if emailSteps.length = 0
          then ["At least one email step is required"] else []) := by
      rw [if_pos hb]; simp
    unfold validateCampaignData
    simp only [List.mem_append]
    tauto
  · intro hb
    have hmem : "User authentication required" ∈
        (if ¬ truthyS userId = true then ["User authentication required"] else []) := by
      rw [if_pos (by simp [hb])]; simp
    unfold validateCampaignData
    simp only [List.mem_append]
    tauto
  · intro hb
    have hmem : "Project selection required" ∈
        (if ¬ truthyS projectId = true then ["Project selection required"] else []) := by
      rw [if_pos (by simp [hb])]; simp
    unfold validateCampaignData
    simp only [List.mem_append]
    tauto
  · intro i h
    have hmem := mem_enum_get i h
    refine ⟨?_, ?_, ?_⟩
    · intro hs
      unfold validateCampaignData
      simp only [List.mem_append]
      refine Or.inr (List.mem_flatMap.mpr ⟨(i, emailSteps.get ⟨i, h⟩), hmem, ?_⟩)
      have hx : ("Email step " ++ toString (i + 1) ++ ": Subject is required") ∈
          (if jsTrim (emailSteps.get ⟨i, h⟩).subject = ""
            then ["Email step " ++ toString (i + 1) ++ ": Subject is required"] else []) := by
        rw [if_pos hs]; simp
      simp only [List.mem_append]
      tauto
    · intro hs
      unfold validateCampaignData
      simp only [List.mem_append]
      refine Or.inr (List.mem_flatMap.mpr ⟨(i, emailSteps.get ⟨i, h⟩), hmem, ?_⟩)
      have hx : ("Email step " ++ toString (i + 1) ++ ": Content is required") ∈
          (if jsTrim (emailSteps.get ⟨i, h⟩).content = ""
            then ["Email step " ++ toString (i + 1) ++ ": Content is required"] else []) := by
        rw [if_pos hs]; simp
      simp only [List.mem_append]
      tauto
    · intro hs
      unfold validateCampaignData
      simp only [List.mem_append]
      refine Or.inr (List.mem_flatMap.mpr ⟨(i, emailSteps.get ⟨i, h⟩), hmem, ?_⟩)
      have hx : ("Email step " ++ toString (i + 1) ++
            ": Invalid delay unit (must be \x27immediately\x27 or \x27business days\x27)") ∈
          (if (emailSteps.get ⟨i, h⟩).delayUnit ≠ "immediately" ∧
              (emailSteps.get ⟨i, h⟩).delayUnit ≠ "business days"
            then ["Email step " ++ toString (i + 1) ++
              ": Invalid delay unit (must be \x27immediately\x27 or \x27business days\x27)"]
            else []) := by
        rw [if_pos hs]; simp
      simp only [List.mem_append]
      tauto

/-- Witness for C8: a campaign whose target audience is blank is blocked with
an aggregated message containing "Target audience is required". -/
theorem C8_witness :
    handleSaveAction cdW [] (some "user-1") none none =
      .blocked ("Please fix the following issues: " ++ String.intercalate ", "
        (validateCampaignData cdW [] (some "user-1") none)) ∧
    "Target audience is required" ∈ validateCampaignData cdW [] (some "user-1") none := by
  have h := C8_validation_aggregates cdW [] (some "user-1") none none
  exact ⟨h.1 (by decide), h.2.1 (by decide)⟩

end CampaignTool

namespace CampaignTool

/-! ## Stage-identity helper lemmas for the heuristic pipeline -/

theorem stepPersHeur_id_of_no_context {userInput : String} {cur : CampaignDraft}
    {r : AssistantResponse} (h : truthyS cur.additionalContext = false) :
    stepPersHeur userInput cur r = r := by
  unfold stepPersHeur
  rw [if_neg (by simp [h])]

theorem stepPersHeur_id_of_nextStep {userInput : String} {cur : CampaignDraft}
    {r : AssistantResponse} (h : r.nextStep ≠ "personalization") :
    stepPersHeur userInput cur r = r := by
  unfold stepPersHeur
  rw [if_neg (by simp [h])]

theorem stepToneHeur_id_of_no_aud {userInput : String} {cur : CampaignDraft}
    {r : AssistantResponse} (ha : truthyS cur.targetAudience = false) :
    stepToneHeur userInput cur r = r := by
  simp only [stepToneHeur]
  rw [if_neg (by simp [ha])]

theorem stepContextHeur_id_of_no_aud {userInput : String} {cur : CampaignDraft}
    {r : AssistantResponse} (ha : truthyS cur.targetAudience = false) :
    stepContextHeur userInput cur r = r := by
  unfold stepContextHeur
  rw [if_neg (by simp [ha])]

theorem stepAudienceHeur_id_of_aud {userInput : String} {cur : CampaignDraft}
    {r : AssistantResponse} (ha : truthyS cur.targetAudience = true) :
    stepAudienceHeur userInput cur r = r := by
  simp only [stepAudienceHeur]
  rw [if_neg (by simp [ha])]

/-! ## Claim C1 -/

/-- Claim C1 as stated is refuted: in the context-pending state a short input
("hi there!", trimmed length 9) is below the heuristic's threshold, so the
returned draft carries whatever the parsed LLM patch proposed (here a
paraphrase), not the raw input. -/
theorem C1_counterexample :
    (processUserInput "hi there!" c1Draft [] (some c1Parsed)).campaignDraft.additionalContext
      = some "User sent a short greeting" ∧
    (processUserInput "hi there!" c1Draft [] (some c1Parsed)).campaignDraft.additionalContext
      ≠ some "hi there!" := by
  refine ⟨?_, ?_⟩ <;> decide

/-- Claim C1 amended (corrected): on the LLM-success path, whenever the draft
is context-pending (goal, targetAudience and tone set, additionalContext
unset) and the trimmed input is longer than 10 characters, the returned
draft's additionalContext is byte-identical to the raw user input —
overriding any parsed patch — and the turn advances to personalization. -/
theorem C1_amended (userInput : String) (cur : CampaignDraft)
    (recentSearches : List String) (parsed : ParsedResponse)
    (hg : truthyS cur.goal = true) (ha : truthyS cur.targetAudience = true)
    (ht : truthyS cur.tone = true) (hc : truthyS cur.additionalContext = false)
    (hl : (jsTrim userInput).length > 10) :
    (processUserInputSuccess userInput cur recentSearches parsed).campaignDraft.additionalContext
      = some userInput ∧
    (processUserInputSuccess userInput cur recentSearches parsed).nextStep
      = "personalization" := by
  unfold processUserInputSuccess
  rw [stepPersHeur_id_of_no_context hc]
  unfold stepContextHeur
  rw [if_pos ⟨ha, ht, by simp [hc], hl⟩]
  exact ⟨rfl, rfl⟩

/-- Witness for the amended C1 at a concrete context-pending draft: raw input
with leading/trailing whitespace and inner runs survives byte-for-byte even
though the LLM patch proposed a paraphrase. -/
theorem C1_witness :
    (processUserInputSuccess "  keep   this <b>exactly</b> <!-- x -->  " c1Draft []
        c1Parsed).campaignDraft.additionalContext
      = some "  keep   this <b>exactly</b> <!-- x -->  " :=
  (C1_amended "  keep   this <b>exactly</b> <!-- x -->  " c1Draft [] c1Parsed
    (by decide) (by decide) (by decide) (by decide) (by decide)).1

/-! ## Claim C7 -/

/-- Claim C7 as stated is refuted twice: a 12-character keyword-free input in
the audience-pending state is not accepted (the inner guard needs a keyword
or more than 20 trimmed characters), and an accepted input is stored trimmed,
not verbatim. -/
theorem C7_counterexample :
    ((processUserInput "zzzzzzzzzzzz" c7Draft [] (some {})).campaignDraft.targetAudience
        = none ∧
      (processUserInput "zzzzzzzzzzzz" c7Draft [] (some {})).nextStep ≠ "tone") ∧
    ((processUserInput "  Oncology nurses in Boston  " c7Draft []
          (some {})).campaignDraft.targetAudience = some "Oncology nurses in Boston" ∧
      (processUserInput "  Oncology nurses in Boston  " c7Draft []
          (some {})).campaignDraft.targetAudience ≠ some "  Oncology nurses in Boston  ") := by
  refine ⟨⟨?_, ?_⟩, ?_, ?_⟩ <;> decide

/-- Claim C7 amended (corrected): with goal set and targetAudience unset, the
heuristic accepts the input exactly when its trimmed length exceeds 10 and it
also contains an audience-, location- or experience-keyword or exceeds 20
trimmed characters; it then stores the trimmed input as targetAudience and
advances to tone, for every parsed LLM response. -/
theorem C7_amended (userInput : String) (cur : CampaignDraft)
    (recentSearches : List String) (parsed : ParsedResponse)
    (hg : truthyS cur.goal = true) (ha : truthyS cur.targetAudience = false)
    (hl : (jsTrim userInput).length > 10)
    (hk : (audienceKeywords.any (fun k => jsIncludes (jsToLower userInput) k) = true) ∨
          (locationKeywords.any (fun k => jsIncludes (jsToLower userInput) k) = true) ∨
          (experienceKeywords.any (fun k => jsIncludes (jsToLower userInput) k) = true) ∨
          (jsTrim userInput).length > 20) :
    (processUserInputSuccess userInput cur recentSearches parsed).campaignDraft.targetAudience
      = some (jsTrim userInput) ∧
    (processUserInputSuccess userInput cur recentSearches parsed).nextStep = "tone" := by
  unfold processUserInputSuccess
  generalize stepAudienceSuggest recentSearches (stepGoalBlock cur (baseResponse cur parsed)) = r2
  simp only [stepAudienceHeur]
  rw [if_pos ⟨hg, by simp [ha], hl, hk⟩]
  rw [stepToneHeur_id_of_no_aud ha, stepContextHeur_id_of_no_aud ha]
  rw [stepPersHeur_id_of_nextStep (by simp)]
  exact ⟨rfl, rfl⟩

/-- Witness for the amended C7: a keyword-bearing input is accepted and
stored trimmed. -/
theorem C7_witness :
    (processUserInputSuccess "  Oncology nurses in Boston  " c7Draft []
        {}).campaignDraft.targetAudience = some "Oncology nurses in Boston" :=
  ((C7_amended "  Oncology nurses in Boston  " c7Draft [] {}
    (by decide) (by decide) (by decide) (Or.inl (by decide))).1).trans (by decide)

end CampaignTool

namespace CampaignTool

/-! ## Further stage lemmas used for the frame property -/

theorem stepToneHeur_id_of_tone {u : String} {cur : CampaignDraft}
    {r : AssistantResponse} (ht : truthyS cur.tone = true) :
    stepToneHeur u cur r = r := by
  simp only [stepToneHeur]
  rw [if_neg (by simp [ht])]

theorem stepContextHeur_id_of_no_tone {u : String} {cur : CampaignDraft}
    {r : AssistantResponse} (ht : truthyS cur.tone = false) :
    stepContextHeur u cur r = r := by
  unfold stepContextHeur
  rw [if_neg (by simp [ht])]

theorem stepContextHeur_id_of_context {u : String} {cur : CampaignDraft}
    {r : AssistantResponse} (hc : truthyS cur.additionalContext = true) :
    stepContextHeur u cur r = r := by
  unfold stepContextHeur
  rw [if_neg (by simp [hc])]

theorem stepAudienceSuggest_proj (rs : List String) (r : AssistantResponse) :
    (stepAudienceSuggest rs r).campaignDraft = r.campaignDraft ∧
    (stepAudienceSuggest rs r).nextStep = r.nextStep := by
  unfold stepAudienceSuggest
  split
  · exact ⟨rfl, rfl⟩
  · exact ⟨rfl, rfl⟩

theorem stepGoalBlock_id_of_goal_eq {cur : CampaignDraft} {r : AssistantResponse}
    (hgr : r.campaignDraft.goal = cur.goal) :
    stepGoalBlock cur r = r := by
  unfold stepGoalBlock
  rw [if_neg (by rw [hgr]; tauto)]

theorem baseResponse_empty (cur : CampaignDraft) (parsed : ParsedResponse)
    (hpatch : parsed.campaignDraft = none) (hns : parsed.nextStep = none) :
    (baseResponse cur parsed).campaignDraft = mergeDraft cur {} ∧
    (baseResponse cur parsed).nextStep = determineNextStep cur := by
  unfold baseResponse
  rw [hpatch, hns]
  exact ⟨rfl, rfl⟩

theorem stepAudienceHeur_cases (u : String) (cur : CampaignDraft) (r : AssistantResponse) :
    stepAudienceHeur u cur r = r ∨
    (truthyS cur.goal = true ∧ truthyS cur.targetAudience = false ∧
      ∃ m s, stepAudienceHeur u cur r =
        { r with
          campaignDraft := { r.campaignDraft with targetAudience := some (jsTrim u) }
          nextStep := "tone"
          message := m
          suggestions := s }) := by
  simp only [stepAudienceHeur]
  split
  · rename_i hcond
    exact Or.inr ⟨hcond.1, by simpa using hcond.2.1, _, _, rfl⟩
  · exact Or.inl rfl

theorem stepToneHeur_cases (u : String) (cur : CampaignDraft) (r : AssistantResponse) :
    stepToneHeur u cur r = r ∨
    (truthyS cur.targetAudience = true ∧ truthyS cur.tone = false ∧
      ∃ m s, stepToneHeur u cur r =
        { r with
          campaignDraft :=
            { r.campaignDraft with
              tone := some (detectTone (jsToLower u))
              emailLength := some (detectLength (jsToLower u)) }
          nextStep := "context"
          message := m
          suggestions := s }) := by
  simp only [stepToneHeur]
  split
  · rename_i hcond
    exact Or.inr ⟨hcond.1, by simpa using hcond.2.1, _, _, rfl⟩
  · exact Or.inl rfl

theorem stepContextHeur_cases (u : String) (cur : CampaignDraft) (r : AssistantResponse) :
    stepContextHeur u cur r = r ∨
    (truthyS cur.targetAudience = true ∧ truthyS cur.tone = true ∧
      truthyS cur.additionalContext = false ∧
      ∃ m s, stepContextHeur u cur r =
        { r with
          campaignDraft := { r.campaignDraft with additionalContext := some u }
          nextStep := "personalization"
          message := m
          suggestions := s }) := by
  unfold stepContextHeur
  split
  · rename_i hcond
    exact Or.inr ⟨hcond.1, hcond.2.1, by simpa using hcond.2.2.1, _, _, rfl⟩
  · exact Or.inl rfl

theorem stepPersHeur_cases (u : String) (cur : CampaignDraft) (r : AssistantResponse) :
    stepPersHeur u cur r = r ∨
    (truthyS cur.additionalContext = true ∧ r.nextStep = "personalization" ∧
      ∃ m s bv, stepPersHeur u cur r =
        { r with
          campaignDraft := { r.campaignDraft with enablePersonalization := some bv }
          nextStep := "review"
          message := m
          suggestions := s }) := by
  simp only [stepPersHeur]
  split
  · rename_i hcond
    exact Or.inr ⟨hcond.1, hcond.2.1, _, _, _, rfl⟩
  · exact Or.inl rfl

theorem dns_pers_imp_eP_none {cur : CampaignDraft}
    (h : determineNextStep cur = "personalization") :
    cur.enablePersonalization = none := by
  unfold determineNextStep at h
  split_ifs at h <;> simp_all

end CampaignTool

namespace CampaignTool

/-! ## Claim C5 -/

/-- Claim C5 as stated is refuted: the parsed LLM patch overwrites the
previously-set goal even though the audience state owns only targetAudience,
and the parsed nextStep regresses a review-ready draft all the way back to
"goal". -/
theorem C5_counterexample :
    (processUserInput "ok" c5Draft [] (some c5Parsed)).campaignDraft.goal
      = some "DIFFERENT" ∧
    c5Draft.goal = some "Keep warm" ∧
    (processUserInput "ok" c5Draft [] (some c5Parsed)).nextStep = "goal" ∧
    determineNextStep c5Draft = "review" := by
  refine ⟨?_, ?_, ?_, ?_⟩ <;> decide

/-- Claim C5 amended (corrected): the fallback path preserves every field of
the input draft (only defaulting emailLength) and returns exactly the state
determined by the draft; the primary path guarantees the frame property and
non-regression only when the parsed response carries no draft patch and no
next step — then heuristics write only the field owned by the pending state
(the tone state owning both tone and emailLength) and the returned state
never ranks below the state determined by the input draft. -/
theorem C5_amended (userInput : String) (cur : CampaignDraft)
    (recentSearches : List String) (parsed : ParsedResponse)
    (hpatch : parsed.campaignDraft = none) (hns : parsed.nextStep = none)
    (hord : Orderly cur) :
    ((createFallbackResponse userInput cur recentSearches).campaignDraft
        = { cur with emailLength := some (jsOrStr cur.emailLength "concise") }) ∧
    ((createFallbackResponse userInput cur recentSearches).nextStep
        = determineNextStep cur) ∧
    (∀ R, R = processUserInputSuccess userInput cur recentSearches parsed →
      R.campaignDraft.goal = cur.goal ∧
      R.campaignDraft.matchedExampleId = cur.matchedExampleId ∧
      R.campaignDraft.type = cur.type ∧
      R.campaignDraft.companyName = cur.companyName ∧
      R.campaignDraft.recruiterName = cur.recruiterName ∧
      (truthyS cur.targetAudience = true →
        R.campaignDraft.targetAudience = cur.targetAudience) ∧
      (truthyS cur.tone = true → R.campaignDraft.tone = cur.tone) ∧
      (truthyS cur.additionalContext = true →
        R.campaignDraft.additionalContext = cur.additionalContext) ∧
      (∀ b, cur.enablePersonalization = some b →
        R.campaignDraft.enablePersonalization = some b) ∧
      (determineNextStep cur ≠ "tone" →
        R.campaignDraft.emailLength = oor cur.emailLength (some "concise")) ∧
      stateRank (determineNextStep cur) ≤ stateRank R.nextStep) := by
  refine ⟨rfl, rfl, ?_⟩
  intro R hR
  have hbase := baseResponse_empty cur parsed hpatch hns
  have hgb : stepGoalBlock cur (baseResponse cur parsed) = baseResponse cur parsed :=
    stepGoalBlock_id_of_goal_eq (by rw [hbase.1]; rfl)
  unfold processUserInputSuccess at hR
  rw [hgb] at hR
  set r2 := stepAudienceSuggest recentSearches (baseResponse cur parsed) with hr2def
  have hr2d : r2.campaignDraft = mergeDraft cur {} := by
    rw [hr2def, (stepAudienceSuggest_proj _ _).1, hbase.1]
  have hr2n : r2.nextStep = determineNextStep cur := by
    rw [hr2def, (stepAudienceSuggest_proj _ _).2, hbase.2]
  rcases stepAudienceHeur_cases userInput cur r2 with hA | ⟨hAg, hAa, m1, s1, hA⟩
  · rw [hA] at hR
    rcases stepToneHeur_cases userInput cur r2 with hT | ⟨hTa, hTt, m2, s2, hT⟩
    · rw [hT] at hR
      rcases stepContextHeur_cases userInput cur r2 with hC | ⟨hCa, hCt, hCc, m3, s3, hC⟩
      · rw [hC] at hR
        rcases stepPersHeur_cases userInput cur r2 with hP | ⟨hPc, hPn, m4, s4, bv, hP⟩
        · -- no heuristic fired: the response is r2
          rw [hP] at hR
          subst hR
          rw [hr2n]
          refine ⟨?_, ?_, ?_, ?_, ?_, fun _ => ?_, fun _ => ?_, fun _ => ?_,
            fun b hb => ?_, fun _ => ?_, Nat.le_refl _⟩ <;>
            rw [hr2d] <;> simp [mergeDraft, oor]
          · rw [hb]
        · -- the personalization heuristic fired
          have hdns : determineNextStep cur = "personalization" := by rw [← hr2n, hPn]
          rw [hP] at hR
          subst hR
          rw [hdns]
          refine ⟨?_, ?_, ?_, ?_, ?_, fun _ => ?_, fun _ => ?_, fun _ => ?_,
            fun b hb => ?_, fun _ => ?_, by simp [stateRank]⟩
          · rw [hr2d]; simp [mergeDraft, oor]
          · rw [hr2d]; simp [mergeDraft, oor]
          · rw [hr2d]; simp [mergeDraft, oor]
          · rw [hr2d]; simp [mergeDraft, oor]
          · rw [hr2d]; simp [mergeDraft, oor]
          · rw [hr2d]; simp [mergeDraft, oor]
          · rw [hr2d]; simp [mergeDraft, oor]
          · rw [hr2d]; simp [mergeDraft, oor]
          · exact absurd hb (by rw [dns_pers_imp_eP_none hdns]; simp)
          · rw [hr2d]; simp [mergeDraft, oor]
      · -- the context heuristic fired
        have hg : truthyS cur.goal = true := hord.1 hCa
        have hdns : determineNextStep cur = "context" := by
          unfold determineNextStep
          simp [hg, hCa, hCt, hCc]
        rw [hC] at hR
        rcases stepPersHeur_cases userInput cur
            ({ r2 with
              campaignDraft := { r2.campaignDraft with additionalContext := some userInput }
              nextStep := "personalization"
              message := m3
              suggestions := s3 }) with hP | ⟨hPc, hPn, m4, s4, bv, hP⟩
        · rw [hP] at hR
          subst hR
          rw [hdns]
          refine ⟨?_, ?_, ?_, ?_, ?_, fun _ => ?_, fun _ => ?_, fun hac => ?_,
            fun b hb => ?_, fun _ => ?_, by simp [stateRank]⟩
          · rw [hr2d]; simp [mergeDraft, oor]
          · rw [hr2d]; simp [mergeDraft, oor]
          · rw [hr2d]; simp [mergeDraft, oor]
          · rw [hr2d]; simp [mergeDraft, oor]
          · rw [hr2d]; simp [mergeDraft, oor]
          · rw [hr2d]; simp [mergeDraft, oor]
          · rw [hr2d]; simp [mergeDraft, oor]
          · exact absurd hac (by simp [hCc])
          · rw [hr2d]; simp [mergeDraft, oor]; rw [hb]
          · rw [hr2d]; simp [mergeDraft, oor]
        · exact absurd hPc (by simp [hCc])
    · -- the tone heuristic fired
      have hg : truthyS cur.goal = true := hord.1 hTa
      have hdns : determineNextStep cur = "tone" := by
        unfold determineNextStep
        simp [hg, hTa, hTt]
      rw [hT] at hR
      rcases stepContextHeur_cases userInput cur
          ({ r2 with
            campaignDraft :=
              { r2.campaignDraft with
                tone := some (detectTone (jsToLower userInput))
                emailLength := some (detectLength (jsToLower userInput)) }
            nextStep := "context"
            message := m2
            suggestions := s2 }) with hC | ⟨hCa, hCt, hCc, m3, s3, hC⟩
      · rw [hC] at hR
        rcases stepPersHeur_cases userInput cur
            ({ r2 with
              campaignDraft :=
                { r2.campaignDraft with
                  tone := some (detectTone (jsToLower userInput))
                  emailLength := some (detectLength (jsToLower userInput)) }
              nextStep := "context"
              message := m2
              suggestions := s2 }) with hP | ⟨hPc, hPn, m4, s4, bv, hP⟩
        · rw [hP] at hR
          subst hR
          rw [hdns]
          refine ⟨?_, ?_, ?_, ?_, ?_, fun _ => ?_, fun htone => ?_, fun _ => ?_,
            fun b hb => ?_, fun hne => ?_, by simp [stateRank]⟩
          · rw [hr2d]; simp [mergeDraft, oor]
          · rw [hr2d]; simp [mergeDraft, oor]
          · rw [hr2d]; simp [mergeDraft, oor]
          · rw [hr2d]; simp [mergeDraft, oor]
          · rw [hr2d]; simp [mergeDraft, oor]
          · rw [hr2d]; simp [mergeDraft, oor]
          · exact absurd htone (by simp [hTt])
          · rw [hr2d]; simp [mergeDraft, oor]
          · rw [hr2d]; simp [mergeDraft, oor]; rw [hb]
          · exact absurd rfl hne
        · simp at hPn
      · exact absurd hCt (by simp [hTt])
  · -- the audience heuristic fired
    rw [hA] at hR
    have hdns : determineNextStep cur = "audience" := by
      unfold determineNextStep
      simp [hAg, hAa]
    rcases stepToneHeur_cases userInput cur
        ({ r2 with
          campaignDraft := { r2.campaignDraft with targetAudience := some (jsTrim userInput) }
          nextStep := "tone"
          message := m1
          suggestions := s1 }) with hT | ⟨hTa, hTt, m2, s2, hT⟩
    · rw [hT] at hR
      rcases stepContextHeur_cases userInput cur
          ({ r2 with
            campaignDraft := { r2.campaignDraft with targetAudience := some (jsTrim userInput) }
            nextStep := "tone"
            message := m1
            suggestions := s1 }) with hC | ⟨hCa, hCt, hCc, m3, s3, hC⟩
      · rw [hC] at hR
        rcases stepPersHeur_cases userInput cur
            ({ r2 with
              campaignDraft := { r2.campaignDraft with targetAudience := some (jsTrim userInput) }
              nextStep := "tone"
              message := m1
              suggestions := s1 }) with hP | ⟨hPc, hPn, m4, s4, bv, hP⟩
        · rw [hP] at hR
          subst hR
          rw [hdns]
          refine ⟨?_, ?_, ?_, ?_, ?_, fun haud => ?_, fun htone => ?_, fun hac => ?_,
            fun b hb => ?_, fun _ => ?_, by simp [stateRank]⟩
          · rw [hr2d]; simp [mergeDraft, oor]
          · rw [hr2d]; simp [mergeDraft, oor]
          · rw [hr2d]; simp [mergeDraft, oor]
          · rw [hr2d]; simp [mergeDraft, oor]
          · rw [hr2d]; simp [mergeDraft, oor]
          · exact absurd haud (by simp [hAa])
          · exact absurd (hord.2.1 htone) (by simp [hAa])
          · exact absurd (hord.2.1 (hord.2.2 hac)) (by simp [hAa])
          · rw [hr2d]; simp [mergeDraft, oor]; rw [hb]
          · rw [hr2d]; simp [mergeDraft, oor]
        · simp at hPn
      · exact absurd hCa (by simp [hAa])
    · exact absurd hTa (by simp [hAa])

/-- Witness for the amended C5: with an empty parsed patch, a context-pending
draft keeps its previously-set targetAudience and the next step never ranks
below the one the draft determines. -/
theorem C5_witness :
    (createFallbackResponse "ok" c1Draft []).campaignDraft
        = { c1Draft with emailLength := some (jsOrStr c1Draft.emailLength "concise") } ∧
    (processUserInputSuccess "ok" c1Draft [] {}).campaignDraft.targetAudience
        = c1Draft.targetAudience ∧
    stateRank (determineNextStep c1Draft)
      ≤ stateRank (processUserInputSuccess "ok" c1Draft [] {}).nextStep := by
  have h := C5_amended "ok" c1Draft [] {} rfl rfl (by decide)
  refine ⟨h.1, ?_, ?_⟩
  · exact (h.2.2 _ rfl).2.2.2.2.2.1 (by decide)
  · exact (h.2.2 _ rfl).2.2.2.2.2.2.2.2.2.2

end CampaignTool

namespace CampaignTool

/-! ## Replacement lemmas at the string level -/

theorem jsReplaceAll_identity {s pat rep : String} (hp : pat.data ≠ [])
    (h : countOccS pat s = 0) : jsReplaceAll s pat rep = s := by
  unfold jsReplaceAll
  rw [replaceAllL_of_countOcc_zero hp s.data h]

theorem jsReplaceAll_joinSepS {sep rep : String} (hp : sep.data ≠ [])
    (segs : List String) (hsegs : ∀ s ∈ segs, CleanS sep s) :
    jsReplaceAll (joinSepS sep segs) sep rep = joinSepS rep segs := by
  unfold jsReplaceAll joinSepS
  congr 1
  refine replaceAllL_joinSep hp _ ?_
  intro l hl
  obtain ⟨s, hs, rfl⟩ := List.mem_map.mp hl
  exact hsegs s hs

theorem countOcc_joinSep_zero {pat sep : List Char} (hp : pat ≠ []) (hsep : Clean pat sep) :
    ∀ segs, (∀ s ∈ segs, Clean pat s) → countOcc pat (joinSep sep segs) = 0 := by
  intro segs
  induction segs with
  | nil => intro _; rfl
  | cons a rest ih =>
    intro h
    cases rest with
    | nil => simpa [joinSep] using (h a (by simp)).1
    | cons b rest' =>
      simp only [joinSep]
      rw [List.append_assoc]
      rw [countOcc_append hp _ a (h a (by simp)).2]
      rw [countOcc_append hp _ sep hsep.2]
      rw [(h a (by simp)).1, hsep.1, ih (fun s hs => h s (by simp [hs]))]

theorem jsReplaceAll_joinSepS_id {sep pat rep : String} (hp : pat.data ≠ [])
    (hsep : CleanS pat sep) (segs : List String) (hsegs : ∀ s ∈ segs, CleanS pat s) :
    jsReplaceAll (joinSepS sep segs) pat rep = joinSepS sep segs := by
  apply jsReplaceAll_identity hp
  unfold countOccS joinSepS
  refine countOcc_joinSep_zero hp hsep _ ?_
  intro l hl
  obtain ⟨s, hs, rfl⟩ := List.mem_map.mp hl
  exact hsegs s hs

/-! ## Claim C4 -/

/-- Claim C4 as stated is refuted: `{{Recruiter Name}}` is not a recognized
token of either substitution function (it survives untouched rather than
becoming the recruiter name or a fallback constant), and
`applyTokenReplacement` substitutes the fixed constant for
`{{Company Name}}` — it has no campaign company name in its context at all. -/
theorem C4_counterexample :
    applyTokenReplacement tokRecruiterName c4Cand = tokRecruiterName ∧
    applyBasicTokenReplacement "John Smith" "Acme Health" "Jane Doe" tokRecruiterName
      = tokRecruiterName ∧
    applyBasicTokenReplacement "John Smith" "Acme Health" "Jane Doe" tokRecruiterName
      ≠ "Jane Doe" ∧
    applyTokenReplacement tokCompanyName c4Cand = "HCA Healthcare" := by
  refine ⟨?_, ?_, ?_, ?_⟩ <;> decide

/-- Claim C4 amended (corrected): `applyTokenReplacement` replaces every one
of the `N` occurrences of each recognized token — `{{First Name}}` by the
first space-delimited word of the candidate name, `{{Current Company}}` by
the candidate company, `{{Company Name}}` by the constant "HCA Healthcare",
`{{Your Name}}` by the constant "Saurabh Agrawal", `{{Skill}}` by the first
skill (default "healthcare") — while `{{Recruiter Name}}` and token-free
content pass through unchanged.  The hypotheses say the interleaved segments
and substituted values cannot themselves contain or straddle a token. -/
theorem C4_amended (cand : Candidate) (content : String) (segs : List String)
    (hseg : ∀ s ∈ segs, ∀ t ∈ allTokens, CleanS t s)
    (hfn : ∀ t ∈ allTokens, CleanS t (firstNameOf cand.name))
    (hcc : ∀ t ∈ allTokens, CleanS t cand.company)
    (hsk : ∀ t ∈ allTokens, CleanS t (skillValue cand.skills)) :
    ((∀ t ∈ recognizedTokens, countOccS t content = 0) →
      applyTokenReplacement content cand = content) ∧
    applyTokenReplacement (joinSepS tokFirstName segs) cand
      = joinSepS (firstNameOf cand.name) segs ∧
    applyTokenReplacement (joinSepS tokCurrentCompany segs) cand
      = joinSepS cand.company segs ∧
    applyTokenReplacement (joinSepS tokCompanyName segs) cand
      = joinSepS "HCA Healthcare" segs ∧
    applyTokenReplacement (joinSepS tokYourName segs) cand
      = joinSepS "Saurabh Agrawal" segs ∧
    applyTokenReplacement (joinSepS tokSkill segs) cand
      = joinSepS (skillValue cand.skills) segs ∧
    applyTokenReplacement (joinSepS tokRecruiterName segs) cand
      = joinSepS tokRecruiterName segs := by
  have hsegAt : ∀ (t : String), t ∈ allTokens → ∀ s ∈ segs, CleanS t s :=
    fun t ht s hs => hseg s hs t ht
  refine ⟨?_, ?_, ?_, ?_, ?_, ?_, ?_⟩
  · intro hz
    unfold applyTokenReplacement
    rw [jsReplaceAll_identity (by decide) (hz _ (by simp [recognizedTokens]))]
    rw [jsReplaceAll_identity (by decide) (hz _ (by simp [recognizedTokens]))]
    rw [jsReplaceAll_identity (by decide) (hz _ (by simp [recognizedTokens]))]
    rw [jsReplaceAll_identity (by decide) (hz _ (by simp [recognizedTokens]))]
    rw [jsReplaceAll_identity (by decide) (hz _ (by simp [recognizedTokens]))]
  · unfold applyTokenReplacement
    rw [jsReplaceAll_joinSepS (by decide) segs (hsegAt _ (by simp [allTokens]))]
    rw [jsReplaceAll_joinSepS_id (by decide) (hfn _ (by simp [allTokens])) segs
      (hsegAt _ (by simp [allTokens]))]
    rw [jsReplaceAll_joinSepS_id (by decide) (hfn _ (by simp [allTokens])) segs
      (hsegAt _ (by simp [allTokens]))]
    rw [jsReplaceAll_joinSepS_id (by decide) (hfn _ (by simp [allTokens])) segs
      (hsegAt _ (by simp [allTokens]))]
    rw [jsReplaceAll_joinSepS_id (by decide) (hfn _ (by simp [allTokens])) segs
      (hsegAt _ (by simp [allTokens]))]
  · unfold applyTokenReplacement
    rw [jsReplaceAll_joinSepS_id (by decide) (by decide) segs
      (hsegAt _ (by simp [allTokens]))]
    rw [jsReplaceAll_joinSepS (by decide) segs (hsegAt _ (by simp [allTokens]))]
    rw [jsReplaceAll_joinSepS_id (by decide) (hcc _ (by simp [allTokens])) segs
      (hsegAt _ (by simp [allTokens]))]
    rw [jsReplaceAll_joinSepS_id (by decide) (hcc _ (by simp [allTokens])) segs
      (hsegAt _ (by simp [allTokens]))]
    rw [jsReplaceAll_joinSepS_id (by decide) (hcc _ (by simp [allTokens])) segs
      (hsegAt _ (by simp [allTokens]))]
  · unfold applyTokenReplacement
    rw [jsReplaceAll_joinSepS_id (by decide) (by decide) segs
      (hsegAt _ (by simp [allTokens]))]
    rw [jsReplaceAll_joinSepS_id (by decide) (by decide) segs
      (hsegAt _ (by simp [allTokens]))]
    rw [jsReplaceAll_joinSepS (by decide) segs (hsegAt _ (by simp [allTokens]))]
    rw [jsReplaceAll_joinSepS_id (by decide) (by decide) segs
      (hsegAt _ (by simp [allTokens]))]
    rw [jsReplaceAll_joinSepS_id (by decide) (by decide) segs
      (hsegAt _ (by simp [allTokens]))]
  · unfold applyTokenReplacement
    rw [jsReplaceAll_joinSepS_id (by decide) (by decide) segs
      (hsegAt _ (by simp [allTokens]))]
    rw [jsReplaceAll_joinSepS_id (by decide) (by decide) segs
      (hsegAt _ (by simp [allTokens]))]
    rw [jsReplaceAll_joinSepS_id (by decide) (by decide) segs
      (hsegAt _ (by simp [allTokens]))]
    rw [jsReplaceAll_joinSepS (by decide) segs (hsegAt _ (by simp [allTokens]))]
    rw [jsReplaceAll_joinSepS_id (by decide) (by decide) segs
      (hsegAt _ (by simp [allTokens]))]
  · unfold applyTokenReplacement
    rw [jsReplaceAll_joinSepS_id (by decide) (by decide) segs
      (hsegAt _ (by simp [allTokens]))]
    rw [jsReplaceAll_joinSepS_id (by decide) (by decide) segs
      (hsegAt _ (by simp [allTokens]))]
    rw [jsReplaceAll_joinSepS_id (by decide) (by decide) segs
      (hsegAt _ (by simp [allTokens]))]
    rw [jsReplaceAll_joinSepS_id (by decide) (by decide) segs
      (hsegAt _ (by simp [allTokens]))]
    rw [jsReplaceAll_joinSepS (by decide) segs (hsegAt _ (by simp [allTokens]))]
  · unfold applyTokenReplacement
    rw [jsReplaceAll_joinSepS_id (by decide) (by decide) segs
      (hsegAt _ (by simp [allTokens]))]
    rw [jsReplaceAll_joinSepS_id (by decide) (by decide) segs
      (hsegAt _ (by simp [allTokens]))]
    rw [jsReplaceAll_joinSepS_id (by decide) (by decide) segs
      (hsegAt _ (by simp [allTokens]))]
    rw [jsReplaceAll_joinSepS_id (by decide) (by decide) segs
      (hsegAt _ (by simp [allTokens]))]
    rw [jsReplaceAll_joinSepS_id (by decide) (by decide) segs
      (hsegAt _ (by simp [allTokens]))]

/-- Witness for the amended C4: three occurrences of `{{First Name}}` all
become "John", and a `{{Recruiter Name}}` document is left unchanged. -/
theorem C4_witness :
    applyTokenReplacement (joinSepS tokFirstName ["Dear ", ", hello ", ", bye ", "."])
        c4Cand = joinSepS "John" ["Dear ", ", hello ", ", bye ", "."] ∧
    applyTokenReplacement (joinSepS tokRecruiterName ["Dear ", "."]) c4Cand
      = joinSepS tokRecruiterName ["Dear ", "."] := by
  have h := C4_amended c4Cand "" ["Dear ", ", hello ", ", bye ", "."]
    (by intro s hs t ht; fin_cases hs <;> fin_cases ht <;> decide)
    (by intro t ht; fin_cases ht <;> decide)
    (by intro t ht; fin_cases ht <;> decide)
    (by intro t ht; fin_cases ht <;> decide)
  have h2 := C4_amended c4Cand "" ["Dear ", "."]
    (by intro s hs t ht; fin_cases hs <;> fin_cases ht <;> decide)
    (by intro t ht; fin_cases ht <;> decide)
    (by intro t ht; fin_cases ht <;> decide)
    (by intro t ht; fin_cases ht <;> decide)
  refine ⟨?_, h2.2.2.2.2.2.2⟩
  have h3 := h.2.1
  rw [h3]
  decide

end CampaignTool

namespace CampaignTool

/-! ## Claim C2 -/

/-- Claim C2 as stated is refuted: on the primary LLM-parsing path of
`generateCampaignFromDraft`, a second step whose parsed delayUnit is
"immediately" keeps it — `step.delayUnit || 'business days'` only fills a
falsy value. -/
theorem C2_counterexample :
    (generateCampaignFromDraft (fun i => if i = "talent-community" then some exCat else none)
        lgCat dC2 [] (some c2Parsed)).toOption.map
      (fun r => r.emailSteps.map (fun s => s.delayUnit))
      = some ["immediately", "immediately"] := by
  decide

/-- Claim C2 amended (corrected): both deterministic fallback generators
satisfy the invariant unconditionally (first step delay 0 / "immediately",
later steps "business days").  On the LLM-parsing paths the first step is
always forced to "immediately" (and, in `generateCampaignFromDraft`, to
delay 0), while a later step gets "business days" only when the parsed step
does not itself carry a different non-empty delayUnit —
`generateCampaignFromDraft` keeps any truthy string and
`generateCampaignSequence` keeps a parsed "immediately" — and
`generateCampaignSequence` keeps a positive parsed first-step delay instead
of forcing 0. -/
theorem C2_amended :
    (∀ draft ex coll, ∀ i, ∀ h : i < (createFallbackCampaign draft ex coll).emailSteps.length,
      (((createFallbackCampaign draft ex coll).emailSteps.get ⟨i, h⟩).delay
          = if i = 0 then 0 else (i : Int) * 2) ∧
      (((createFallbackCampaign draft ex coll).emailSteps.get ⟨i, h⟩).delayUnit
          = if i = 0 then "immediately" else "business days")) ∧
    (∀ prompt coll, (fallbackSequence prompt coll).map (fun s => (s.delay, s.delayUnit))
        = [(0, "immediately"), (3, "business days"), (5, "business days")]) ∧
    (∀ s, (mapParsedStep 0 s).delay = 0 ∧ (mapParsedStep 0 s).delayUnit = "immediately") ∧
    (∀ i s, i ≠ 0 →
      (s.delayUnit = none ∨ s.delayUnit = some "" ∨ s.delayUnit = some "business days") →
      (mapParsedStep i s).delayUnit = "business days") ∧
    (∀ s, (mapSeqStep 0 s).delayUnit = "immediately") ∧
    (∀ i s, i ≠ 0 → s.delayUnit ≠ some "immediately" →
      (mapSeqStep i s).delayUnit = "business days") ∧
    (∀ s : ParsedStep, ∀ v : Int, s.delay = some v → 0 < v → (mapSeqStep 0 s).delay = v) ∧
    (∀ lid lg draft coll parsed r,
      generateCampaignFromDraft lid lg draft coll (some parsed) = .ok r →
        r.emailSteps = parsed.emailSteps.enum.map (fun p => mapParsedStep p.1 p.2)) ∧
    (∀ prompt coll steps,
      generateCampaignSequence prompt coll (some steps)
        = steps.enum.map (fun p => mapSeqStep p.1 p.2)) := by
  refine ⟨?_, ?_, ?_, ?_, ?_, ?_, ?_, ?_, ?_⟩
  · intro draft ex coll i h
    simp only [createFallbackCampaign, List.get_eq_getElem, List.getElem_map,
      List.getElem_enum]
    exact ⟨trivial, trivial⟩
  · intro prompt coll
    rfl
  · intro s
    exact ⟨rfl, rfl⟩
  · intro i s hi hdu
    unfold mapParsedStep
    simp only [if_neg hi]
    rcases hdu with h | h | h <;> simp [jsOrStr, h]
  · intro s
    rfl
  · intro i s hi hdu
    unfold mapSeqStep
    simp only [if_neg hi]
    cases hx : s.delayUnit with
    | none => rfl
    | some u =>
      rw [hx] at hdu
      have hne : u ≠ "immediately" := fun he => hdu (by rw [he])
      by_cases hb : u = "business days"
      · simp [hne, hb]
      · simp [hne, hb]
  · intro s v hsv hv
    have hj : jsOrInt s.delay 0 = v := by
      rw [hsv]
      show (if v = 0 then 0 else v) = v
      rw [if_neg (by omega)]
    show max 0 (jsOrInt s.delay 0) = v
    rw [hj]
    omega
  · intro lid lg draft coll parsed r hok
    unfold generateCampaignFromDraft at hok
    cases hres : resolveExample lid lg draft with
    | none => rw [hres] at hok; simp at hok
    | some ex =>
      rw [hres] at hok
      simp only [Except.ok.injEq] at hok
      rw [← hok]
  · intro prompt coll steps
    rfl

/-- Witness for the amended C2 at concrete inputs: the fallback campaign's
first step, a first parsed step with a junk delay, a later parsed step with
missing delayUnit, a later sequence step with an invalid delayUnit, and a
first sequence step keeping its positive parsed delay. -/
theorem C2_witness :
    ((createFallbackCampaign dW6 exW6 []).emailSteps.get ⟨0, by decide⟩).delayUnit
        = "immediately" ∧
    (mapParsedStep 0 { delay := some 7 }).delay = 0 ∧
    (mapParsedStep 2 { delayUnit := none }).delayUnit = "business days" ∧
    (mapSeqStep 3 { delayUnit := some "weeks" }).delayUnit = "business days" ∧
    (mapSeqStep 0 { delay := some 7 }).delay = 7 := by
  have h1 := (C2_amended.1 dW6 exW6 [] 0 (by decide)).2
  have h3 := C2_amended.2.2.1 ({ delay := some 7 } : ParsedStep)
  have h4 := C2_amended.2.2.2.1 2 ({ delayUnit := none } : ParsedStep) (by decide)
    (Or.inl rfl)
  have h5 := C2_amended.2.2.2.2.2.1 3 ({ delayUnit := some "weeks" } : ParsedStep)
    (by decide) (by decide)
  have h6 := C2_amended.2.2.2.2.2.2.1 ({ delay := some 7 } : ParsedStep) 7 rfl
    (by decide)
  exact ⟨h1, h3.1, h4, h5, h6⟩

end CampaignTool

namespace CampaignTool

set_option maxRecDepth 200000
set_option maxHeartbeats 2000000

/-! ## Marker-counting lemmas for the fallback email body -/

theorem cleanS_empty (pat : String) : CleanS pat "" :=
  ⟨rfl, spanFree_nil pat.data⟩

theorem cleanS_append {pat a b : String} (hp : pat.data ≠ []) (ha : CleanS pat a)
    (hb : CleanS pat b) : CleanS pat (a ++ b) := by
  unfold CleanS
  rw [String.data_append]
  exact clean_append hp ha hb

theorem countOccS_mid {pat h p t : String} (hpat : pat.data ≠ []) (hh : CleanS pat h)
    (hsp : SpanFree pat.data p.data) (ht : countOccS pat t = 0) :
    countOccS pat (h ++ p ++ t) = countOccS pat p := by
  unfold countOccS
  rw [String.data_append, String.data_append]
  exact countOcc_mid hpat hh hsp ht

theorem snd_mem_of_mem_enumFrom {α : Type} :
    ∀ (l : List α) (n : Nat) (p : Nat × α), p ∈ l.enumFrom n → p.2 ∈ l := by
  intro l
  induction l with
  | nil => intro n p h; simp [List.enumFrom] at h
  | cons a t ih =>
    intro n p h
    simp only [List.enumFrom, List.mem_cons] at h
    rcases h with h | h
    · rw [h]; exact List.mem_cons_self a t
    · exact List.mem_cons_of_mem a (ih (n + 1) p h)

theorem snd_mem_of_mem_enum {α : Type} {l : List α} {p : Nat × α} (h : p ∈ l.enum) :
    p.2 ∈ l :=
  snd_mem_of_mem_enumFrom l 0 p h

theorem persVariant_clean (pat : String) (hp : pat.data ≠ []) (i : Nat)
    (companyName : String) (hcn : CleanS pat companyName) (h0 : CleanS pat fePersV0)
    (h1 : CleanS pat fePersV1) (h2 : CleanS pat fePersV2) (hd : CleanS pat ".") :
    CleanS pat (persVariant i companyName) := by
  unfold persVariant
  split
  · exact h0
  · split
    · exact cleanS_append hp (cleanS_append hp h1 hcn) hd
    · exact h2

theorem persBlock_count (pat : String) (hp : pat.data ≠ []) (enabled : Bool) (i : Nat)
    (companyName : String) (hvar : CleanS pat (persVariant i companyName))
    (hopen_sf : SpanFree pat.data fePersOpen.data)
    (hclose_sf : SpanFree pat.data fePersClose.data)
    (hsum : countOccS pat fePersOpen + countOccS pat fePersClose = 1) :
    countOccS pat (persBlock enabled i companyName) = (if enabled then 1 else 0) ∧
    SpanFree pat.data (persBlock enabled i companyName).data := by
  cases enabled with
  | true =>
    constructor
    · show countOccS pat (fePersOpen ++ persVariant i companyName ++ fePersClose) = 1
      unfold countOccS
      rw [String.data_append, String.data_append]
      rw [countOcc_append hp _ _ (spanFree_append hopen_sf hvar.2)]
      rw [countOcc_append hp _ _ hopen_sf]
      have hv0 : countOcc pat.data (persVariant i companyName).data = 0 := hvar.1
      unfold countOccS at hsum
      omega
    · show SpanFree pat.data (fePersOpen ++ persVariant i companyName ++ fePersClose).data
      rw [String.data_append, String.data_append]
      exact spanFree_append (spanFree_append hopen_sf hvar.2) hclose_sf
  | false =>
    exact ⟨rfl, spanFree_nil pat.data⟩

theorem fbHeader_clean (pat : String) (hp : pat.data ≠ [])
    (benOpen contextText companyInfo companyMission companyBenefits title : String)
    (i : Nat) (hben : CleanS pat benOpen) (hctx : CleanS pat contextText)
    (hinfo : CleanS pat companyInfo) (hmis : CleanS pat companyMission)
    (hbenv : CleanS pat companyBenefits) (htitle : CleanS pat title)
    (h1 : CleanS pat feHead1) (h2 : CleanS pat feHead2) (h3 : CleanS pat feHead3)
    (hio : CleanS pat feInfoOpen) (hic : CleanS pat feInfoClose)
    (hgap : CleanS pat feGap) (hbc : CleanS pat feBenClose) :
    CleanS pat (fbHeader benOpen contextText companyInfo companyMission
      companyBenefits i title) := by
  have hite1 : CleanS pat
      (if i = 0 ∧ companyInfo ≠ "" then feInfoOpen ++ companyInfo ++ feInfoClose
        else "") := by
    split
    · exact cleanS_append hp (cleanS_append hp hio hinfo) hic
    · exact cleanS_empty pat
  have hite2 : CleanS pat
      (if i = 1 ∧ companyMission ≠ "" then feInfoOpen ++ companyMission ++ feInfoClose
        else "") := by
    split
    · exact cleanS_append hp (cleanS_append hp hio hmis) hic
    · exact cleanS_empty pat
  have hite3 : CleanS pat
      (if i = 2 ∧ companyBenefits ≠ "" then benOpen ++ companyBenefits ++ feBenClose
        else "") := by
    split
    · exact cleanS_append hp (cleanS_append hp hben hbenv) hbc
    · exact cleanS_empty pat
  have hA : CleanS pat (feHead1 ++ title ++ feHead2 ++ contextText ++ feHead3) :=
    cleanS_append hp
      (cleanS_append hp (cleanS_append hp (cleanS_append hp h1 htitle) h2) hctx) h3
  have hB : CleanS pat (condBlocks benOpen i companyInfo companyMission companyBenefits) := by
    unfold condBlocks
    exact cleanS_append hp
      (cleanS_append hp (cleanS_append hp (cleanS_append hp hite1 hgap) hite2) hgap) hite3
  unfold fbHeader
  exact cleanS_append hp hA hB

theorem fbTail_clean (pat : String) (hp : pat.data ≠ [])
    (tLink cLink companyName : String) (i : Nat)
    (htl : CleanS pat tLink) (hcl : CleanS pat cLink) (hcn : CleanS pat companyName)
    (hsp : CleanS pat "\n      ") (hc0 : CleanS pat feCta0) (hc1 : CleanS pat feCta1)
    (hc2 : CleanS pat feCta2) (hgap : CleanS pat feGap)
    (ht1 : CleanS pat feTalent1) (ht2 : CleanS pat feTalent2)
    (hr1 : CleanS pat feCareer1) (hr2 : CleanS pat feCareer2) (hr3 : CleanS pat feCareer3)
    (hsig : CleanS pat feSig) :
    CleanS pat (fbTail tLink cLink companyName i) := by
  have hcta : CleanS pat (ctaVariant i) := by
    unfold ctaVariant
    split
    · exact hc0
    · split
      · exact hc1
      · exact hc2
  have hlink : CleanS pat (linkBlock tLink cLink companyName i) := by
    unfold linkBlock
    split
    · exact cleanS_append hp (cleanS_append hp ht1 htl) ht2
    · split
      · exact cleanS_append hp
          (cleanS_append hp (cleanS_append hp (cleanS_append hp hr1 hcn) hr2) hcl) hr3
      · exact cleanS_empty pat
  unfold fbTail
  exact cleanS_append hp
    (cleanS_append hp (cleanS_append hp (cleanS_append hp hsp hcta) hgap) hlink) hsig

theorem fallbackEmailHtml_count (pat : String) (hp : pat.data ≠ [])
    (benOpen contextText companyName companyInfo companyMission companyBenefits
      tLink cLink : String) (enabled : Bool) (i : Nat) (title : String)
    (hH : CleanS pat (fbHeader benOpen contextText companyInfo companyMission
      companyBenefits i title))
    (hP1 : countOccS pat (persBlock enabled i companyName) = (if enabled then 1 else 0))
    (hP2 : SpanFree pat.data (persBlock enabled i companyName).data)
    (hT : CleanS pat (fbTail tLink cLink companyName i)) :
    countOccS pat (fallbackEmailHtml benOpen contextText companyName companyInfo
      companyMission companyBenefits tLink cLink enabled i title)
      = (if enabled then 1 else 0) := by
  unfold fallbackEmailHtml
  rw [countOccS_mid hp hH hP2 hT.1]
  exact hP1

end CampaignTool

namespace CampaignTool

set_option maxRecDepth 200000
set_option maxHeartbeats 2000000

theorem fallbackEmailHtml_count_start
    (benOpen contextText companyName companyInfo companyMission companyBenefits
      tLink cLink title : String) (enabled : Bool) (i : Nat)
    (hben : CleanS startMarker benOpen) (hctx : CleanS startMarker contextText)
    (hcn : CleanS startMarker companyName) (hinfo : CleanS startMarker companyInfo)
    (hmis : CleanS startMarker companyMission)
    (hbenv : CleanS startMarker companyBenefits) (htl : CleanS startMarker tLink)
    (hcl : CleanS startMarker cLink) (htitle : CleanS startMarker title) :
    countOccS startMarker (fallbackEmailHtml benOpen contextText companyName companyInfo
      companyMission companyBenefits tLink cLink enabled i title)
      = (if enabled then 1 else 0) := by
  have hp : startMarker.data ≠ [] := by decide
  have hvar := persVariant_clean startMarker hp i companyName hcn
    (by decide) (by decide) (by decide) (by decide)
  have hPB := persBlock_count startMarker hp enabled i companyName hvar
    (by decide) (by decide) (by decide)
  exact fallbackEmailHtml_count startMarker hp benOpen contextText companyName companyInfo
    companyMission companyBenefits tLink cLink enabled i title
    (fbHeader_clean startMarker hp benOpen contextText companyInfo companyMission
      companyBenefits title i hben hctx hinfo hmis hbenv htitle
      (by decide) (by decide) (by decide) (by decide) (by decide) (by decide) (by decide))
    hPB.1 hPB.2
    (fbTail_clean startMarker hp tLink cLink companyName i htl hcl hcn
      (by decide) (by decide) (by decide) (by decide) (by decide) (by decide)
      (by decide) (by decide) (by decide) (by decide) (by decide))

theorem fallbackEmailHtml_count_end
    (benOpen contextText companyName companyInfo companyMission companyBenefits
      tLink cLink title : String) (enabled : Bool) (i : Nat)
    (hben : CleanS endMarker benOpen) (hctx : CleanS endMarker contextText)
    (hcn : CleanS endMarker companyName) (hinfo : CleanS endMarker companyInfo)
    (hmis : CleanS endMarker companyMission)
    (hbenv : CleanS endMarker companyBenefits) (htl : CleanS endMarker tLink)
    (hcl : CleanS endMarker cLink) (htitle : CleanS endMarker title) :
    countOccS endMarker (fallbackEmailHtml benOpen contextText companyName companyInfo
      companyMission companyBenefits tLink cLink enabled i title)
      = (if enabled then 1 else 0) := by
  have hp : endMarker.data ≠ [] := by decide
  have hvar := persVariant_clean endMarker hp i companyName hcn
    (by decide) (by decide) (by decide) (by decide)
  have hPB := persBlock_count endMarker hp enabled i companyName hvar
    (by decide) (by decide) (by decide)
  exact fallbackEmailHtml_count endMarker hp benOpen contextText companyName companyInfo
    companyMission companyBenefits tLink cLink enabled i title
    (fbHeader_clean endMarker hp benOpen contextText companyInfo companyMission
      companyBenefits title i hben hctx hinfo hmis hbenv htitle
      (by decide) (by decide) (by decide) (by decide) (by decide) (by decide) (by decide))
    hPB.1 hPB.2
    (fbTail_clean endMarker hp tLink cLink companyName i htl hcl hcn
      (by decide) (by decide) (by decide) (by decide) (by decide) (by decide)
      (by decide) (by decide) (by decide) (by decide) (by decide))

/-- C6 counterexample: on the primary path the generated steps carry the
parsed LLM content verbatim, so even with enablePersonalization true a step
may contain zero start markers (here the single parsed step has content
"hello", and the returned marker counts are [0], not [1]). -/
theorem C6_counterexample :
    truthyB dC6.enablePersonalization = true ∧
    (generateCampaignFromDraft
        (fun i => if i = "talent-community" then some exCat else none)
        lgCat dC6 [] (some c6Parsed)).toOption.map
      (fun r => r.emailSteps.map (fun s => countOccS startMarker s.content))
      = some [0] := by
  constructor
  · rfl
  · decide

/-- C6 amended: the personalization-marker contract holds on the fallback
path.  Provided the draft company name, the context text, the collateral
snippets and links, and every guideline example title are themselves free of
both markers (and cannot start a spanning occurrence), every fallback step
contains the start marker exactly once and the end marker exactly once when
enablePersonalization is truthy, and neither marker otherwise.  On the
primary path the step contents are the parsed LLM output and no such
guarantee is enforced by the code. -/
theorem C6_amended (draft : FullDraft) (ex : CampaignExample)
    (coll : List CompanyCollateral)
    (hcn : MarkerClean draft.companyName)
    (hctx : MarkerClean (jsOrStr draft.additionalContext emailDefaultContext))
    (hinfo : MarkerClean (collateralSnippet coll "who_we_are"))
    (hben : MarkerClean (collateralSnippet coll "benefits"))
    (hmis : MarkerClean (collateralSnippet coll "mission_statements"))
    (htl : MarkerClean (collateralLink coll "talent_community_link"))
    (hcl : MarkerClean (collateralLink coll "career_site_link"))
    (hex : ∀ t ∈ ex.sequenceAndExamples.examples, MarkerClean t) :
    ∀ st ∈ (createFallbackCampaign draft ex coll).emailSteps,
      countOccS startMarker st.content
          = (if truthyB draft.enablePersonalization then 1 else 0) ∧
      countOccS endMarker st.content
          = (if truthyB draft.enablePersonalization then 1 else 0) := by
  intro st hst
  simp only [createFallbackCampaign, List.mem_map] at hst
  obtain ⟨p, hp, rfl⟩ := hst
  have hmem : p.2 ∈ ex.sequenceAndExamples.examples := snd_mem_of_mem_enum hp
  have htitle := hex p.2 hmem
  constructor
  · exact fallbackEmailHtml_count_start feBenOpenA
      (jsOrStr draft.additionalContext emailDefaultContext) draft.companyName
      (collateralSnippet coll "who_we_are")
      (collateralSnippet coll "mission_statements")
      (collateralSnippet coll "benefits")
      (collateralLink coll "talent_community_link")
      (collateralLink coll "career_site_link") p.2
      (truthyB draft.enablePersonalization) p.1
      (by decide) hctx.1 hcn.1 hinfo.1 hmis.1 hben.1 htl.1 hcl.1 htitle.1
  · exact fallbackEmailHtml_count_end feBenOpenA
      (jsOrStr draft.additionalContext emailDefaultContext) draft.companyName
      (collateralSnippet coll "who_we_are")
      (collateralSnippet coll "mission_statements")
      (collateralSnippet coll "benefits")
      (collateralLink coll "talent_community_link")
      (collateralLink coll "career_site_link") p.2
      (truthyB draft.enablePersonalization) p.1
      (by decide) hctx.2 hcn.2 hinfo.2 hmis.2 hben.2 htl.2 hcl.2 htitle.2

/-- C6 witness: a concrete fallback run (draft with enablePersonalization
true, one guideline example, no collateral) in which every returned step
carries each marker exactly once. -/
theorem C6_witness :
    (∀ t ∈ exW6.sequenceAndExamples.examples, MarkerClean t) ∧
    ∀ st ∈ (createFallbackCampaign dW6 exW6 []).emailSteps,
      countOccS startMarker st.content
          = (if truthyB dW6.enablePersonalization then 1 else 0) ∧
      countOccS endMarker st.content
          = (if truthyB dW6.enablePersonalization then 1 else 0) :=
  ⟨by decide, C6_amended dW6 exW6 [] (by decide) (by decide) (by decide) (by decide)
    (by decide) (by decide) (by decide) (by decide)⟩

end CampaignTool
